import Mathlib

/-!
# sheetmerger: a shallow embedding of `sheetmerger.go`

The Go package merges and backs up spreadsheet tables through the Google
Sheets / Drive services.  The embedding below follows the source function by
function:

* cells (`interface{}` values of a `[][]interface{}` grid) are a tagged union;
* Go maps are association lists with the lookup semantics of Go maps
  (a missing key yields the zero value);
* a Go panic (index out of range, failed type assertion, nil dereference) is
  an explicit `Panic` result, distinct from a returned `error`;
* the remote services are an abstract state machine `Remote σ`; every remote
  call is appended to a trace.
-/

namespace Sheetmerger

/-! ## Column letters: `n2c` -/

/-- Go `string('A'+j)`: the one-character string whose code point is `'A'+j`
(`'A'` is 65). -/
def letter (j : Int) : String :=
  String.singleton (Char.ofNat (65 + j).toNat)

/-- The `for` loop of `n2c` together with the final `Sprintf`.  Each iteration
sets `i = i - 1; j = i % 26; i = i / 26` (Go's truncated division) and, when
`0 < i`, prepends the letter and continues; otherwise it leaves the loop and
returns the letter prepended to `r`.  Go's `int` is modelled by `Int`: the
decrement can wrap only at the smallest `int`, and every other step moves the
value towards zero. -/
def n2cLoop (i : Int) (r : String) : String :=
  if 0 < Int.tdiv (i - 1) 26 then
    n2cLoop (Int.tdiv (i - 1) 26) (letter (Int.tmod (i - 1) 26) ++ r)
  else
    letter (Int.tmod (i - 1) 26) ++ r
termination_by i.toNat
decreasing_by
  have h1 : 0 < i - 1 := by
    by_contra hc
    have h0 : 0 ≤ -(i - 1) := by omega
    have h2 := Int.tdiv_nonneg h0 (by decide : (0 : Int) ≤ 26)
    rw [Int.neg_tdiv] at h2
    omega
  have h3 : Int.tdiv (i - 1) 26 = (i - 1) / 26 :=
    Int.tdiv_eq_ediv (by omega) (by decide)
  omega

/-- Source `n2c(i int) string`, with `j := 0; r := ""` on entry. -/
def n2c (i : Int) : String :=
  n2cLoop i ""

/-- Standard spreadsheet column value of a letter string: bijective base 26,
`A = 1`, ..., `Z = 26`, most significant letter first. -/
def bijValue (s : String) : Int :=
  s.data.foldl (fun acc c => acc * 26 + ((c.toNat : Int) - 64)) 0

/-! ## Cells, Go maps, panics -/

/-- A cell of the `[][]interface{}` grid returned by the Sheets service: the
JSON scalars.  `null` is the nil interface, which is also the zero value a Go
map lookup yields for a missing key.  A JSON number is carried as an `Int`;
the program only ever compares cells for equality. -/
inductive Cell
  | null
  | str (s : String)
  | num (n : Int)
  | bool (b : Bool)
  deriving DecidableEq

/-- Field `values [][]interface{}`: raw rows, row 0 being the header row. -/
abbrev Grid := List (List Cell)

/-- Go run-time panics the program can raise. -/
inductive Panic
  | indexOutOfRange
  | typeAssertion
  | nilDereference
  deriving DecidableEq

/-- Go `v.(string)`: a failed single-value type assertion panics. -/
def Cell.assertString : Cell → Except Panic String
  | Cell.str s => Except.ok s
  | _ => Except.error Panic.typeAssertion

/-- Go `map[string]interface{}`, kept as an association list whose most recent
binding comes first. -/
abbrev Row := List (String × Cell)

/-- Go `t[k]` on a `map[string]interface{}`: the bound value, or the nil
interface when `k` is not a key. -/
def rowGet (t : Row) (k : String) : Cell :=
  match List.lookup k t with
  | some v => v
  | none => Cell.null

/-- Go `t[k] = v`: the new binding shadows any earlier binding of `k`. -/
def rowSet (t : Row) (k : String) (v : Cell) : Row :=
  (k, v) :: t

/-! ## The `sheet` type and its derived views -/

/-- Source `type sheet struct`; the `sheetsService` handle is the `Remote`
passed to the operations that use it.  `none` in the two cache fields is the
nil slice. -/
structure sheet where
  sheetKey : String
  sheetName : String
  headersArr : Option (List String)
  values : Grid
  rowsMap : Option (List Row)
  indexSheetName : String

/-- The loop `for i, v := range s.values[0] { r[i] = v.(string) }`. -/
def assertStrings : List Cell → Except Panic (List String)
  | [] => Except.ok []
  | v :: vs =>
    match v.assertString with
    | Except.error p => Except.error p
    | Except.ok h =>
      match assertStrings vs with
      | Except.error p => Except.error p
      | Except.ok hs => Except.ok (h :: hs)

/-- Source `(s *sheet) headers`: the cached slice when it is non-nil, else
every cell of row 0 asserted to be a string; the result is cached.  Returns
the slice and the updated sheet. -/
def sheet.headers (s : sheet) : Except Panic (List String × sheet) :=
  match s.headersArr with
  | some r => Except.ok (r, s)
  | none =>
    match s.values with
    | [] => Except.error Panic.indexOutOfRange
    | hd :: _ =>
      match assertStrings hd with
      | Except.error p => Except.error p
      | Except.ok r => Except.ok (r, { s with headersArr := some r })

/-- The loop of `headerIndexes`: positions `i` (counted from `i`) of the cells
with `v != ""`. -/
def headerIndexesFrom : Nat → List Cell → List Nat
  | _, [] => []
  | i, v :: vs =>
    if v ≠ Cell.str "" then i :: headerIndexesFrom (i + 1) vs
    else headerIndexesFrom (i + 1) vs

/-- Source `(s *sheet) headerIndexes`. -/
def sheet.headerIndexes (s : sheet) : Except Panic (List Nat) :=
  match s.values with
  | [] => Except.error Panic.indexOutOfRange
  | hd :: _ => Except.ok (headerIndexesFrom 0 hd)

/-- Inner loop of `rows`: for each `k` in `indexes`,
`t[headers[k]] = ""` when `len(rows) <= k`, else `t[headers[k]] = rows[k]`. -/
def buildRow (headers : List String) (raw : List Cell) : List Nat → Row → Except Panic Row
  | [], t => Except.ok t
  | k :: ks, t =>
    match headers[k]? with
    | none => Except.error Panic.indexOutOfRange
    | some h =>
      match raw[k]? with
      | none => buildRow headers raw ks (rowSet t h (Cell.str ""))
      | some c => buildRow headers raw ks (rowSet t h c)

/-- Outer loop of `rows` over `s.values[1:]`: a built row is appended when
`t["id"] != ""`. -/
def rowsLoop (headers : List String) (indexes : List Nat) : Grid → Except Panic (List Row)
  | [] => Except.ok []
  | raw :: rest =>
    match buildRow headers raw indexes [] with
    | Except.error p => Except.error p
    | Except.ok t =>
      match rowsLoop headers indexes rest with
      | Except.error p => Except.error p
      | Except.ok r => Except.ok (if rowGet t "id" ≠ Cell.str "" then t :: r else r)

/-- Source `(s *sheet) rows`: the cached rows when non-nil, else the logical
rows built from the raw grid; the result is cached. -/
def sheet.rows (s : sheet) : Except Panic (List Row × sheet) :=
  match s.rowsMap with
  | some r => Except.ok (r, s)
  | none =>
    match s.headers with
    | Except.error p => Except.error p
    | Except.ok (headers, s1) =>
      match s1.headerIndexes with
      | Except.error p => Except.error p
      | Except.ok indexes =>
        match rowsLoop headers indexes (s1.values.drop 1) with
        | Except.error p => Except.error p
        | Except.ok r => Except.ok (r, { s1 with rowsMap := some r })

/-- Source `sheets.ValueRange`, the two fields the program sets. -/
structure ValueRange where
  majorDimension : String
  values : Grid
  deriving DecidableEq

/-- Inner loop of `headersToValueRange`: `t[j] = row[h]` when `h != ""`, else
`t[j] = ""`. -/
def projectRow (headers : List String) (row : Row) : List Cell :=
  headers.map (fun h => if h ≠ "" then rowGet row h else Cell.str "")

/-- Source `(s *sheet) headersToValueRange(headers ...string)`. -/
def sheet.headersToValueRange (s : sheet) (headers : List String) :
    Except Panic (ValueRange × sheet) :=
  match s.rows with
  | Except.error p => Except.error p
  | Except.ok (rows, s1) =>
    Except.ok ({ majorDimension := "ROWS", values := rows.map (projectRow headers) }, s1)

/-! ## Column queries -/

/-- Go `count[k]` lookup on `map[interface{}]int`. -/
def countGet (count : List (Cell × Nat)) (k : Cell) : Option Nat :=
  List.lookup k count

/-- Go `count[k] = n`: overwrite the binding of `k`, or add one. -/
def countSet : List (Cell × Nat) → Cell → Nat → List (Cell × Nat)
  | [], k, n => [(k, n)]
  | (k1, n1) :: rest, k, n =>
    if k1 = k then (k1, n) :: rest else (k1, n1) :: countSet rest k n

/-- Body of the two counting loops of `dupCheckByColumn`:
`if i, ok := count[k]; ok { count[k] = i + 1 } else { count[k] = 1 }`. -/
def countIncr (count : List (Cell × Nat)) (k : Cell) : List (Cell × Nat) :=
  match countGet count k with
  | some i => countSet count k (i + 1)
  | none => countSet count k 1

/-- One counting loop of `dupCheckByColumn` over a slice of rows. -/
def countRows (column : String) : List Row → List (Cell × Nat) → List (Cell × Nat)
  | [], count => count
  | v :: rest, count => countRows column rest (countIncr count (rowGet v column))

/-- Source `(s *sheet) dupCheckByColumn(diff *sheet, column string)`.  Go
ranges over `count` in an unspecified order; the model lists the keys in
first-insertion order, and the theorems about the result speak of membership
and multiplicity only. -/
def sheet.dupCheckByColumn (s diff : sheet) (column : String) :
    Except Panic (List Cell × sheet × sheet) :=
  match s.rows with
  | Except.error p => Except.error p
  | Except.ok (rs, s1) =>
    match diff.rows with
    | Except.error p => Except.error p
    | Except.ok (rd, diff1) =>
      Except.ok
        (((countRows column rd (countRows column rs [])).filter (fun kv => 1 < kv.2)).map
          Prod.fst, s1, diff1)

/-- The loop of `uniqueValuesByColumn`; `countMap` is the set of strings seen
so far, `res` the result slice. -/
def uniqueLoop (column : String) :
    List Row → List String → List String → Except Panic (List String)
  | [], _, res => Except.ok res
  | row :: rest, countMap, res =>
    match (rowGet row column).assertString with
    | Except.error p => Except.error p
    | Except.ok v =>
      if v ∈ countMap then uniqueLoop column rest countMap res
      else uniqueLoop column rest (v :: countMap) (res ++ [v])

/-- Source `(s *sheet) uniqueValuesByColumn(column string)`. -/
def sheet.uniqueValuesByColumn (s : sheet) (column : String) :
    Except Panic (List String × sheet) :=
  match s.rows with
  | Except.error p => Except.error p
  | Except.ok (rows, s1) =>
    match uniqueLoop column rows [] [] with
    | Except.error p => Except.error p
    | Except.ok res => Except.ok (res, s1)

/-- The loop of `headerIndexByColumn`, scanning from position `i`. -/
def headerIndexLoop (column : String) : List Cell → Nat → Except Panic Int
  | [], _ => Except.ok (-1)
  | v :: vs, i =>
    match v.assertString with
    | Except.error p => Except.error p
    | Except.ok h => if h = column then Except.ok (i : Int) else headerIndexLoop column vs (i + 1)

/-- Source `(s *sheet) headerIndexByColumn(column string) int`. -/
def sheet.headerIndexByColumn (s : sheet) (column : String) : Except Panic Int :=
  match s.values with
  | [] => Except.error Panic.indexOutOfRange
  | hd :: _ => headerIndexLoop column hd 0

/-- The loop of `replaceByColumn` building `update`: `k := values[index]`,
then `[]interface{}{v}` when `replaceMap[k.(string)]` is bound to `v`, else
`[]interface{}{k}`. -/
def replaceLoop (index : Int) (replaceMap : List (String × String)) : Grid → Except Panic Grid
  | [] => Except.ok []
  | values :: rest =>
    if index < 0 then Except.error Panic.indexOutOfRange
    else
      match values[index.toNat]? with
      | none => Except.error Panic.indexOutOfRange
      | some k =>
        match k.assertString with
        | Except.error p => Except.error p
        | Except.ok ks =>
          match replaceLoop index replaceMap rest with
          | Except.error p => Except.error p
          | Except.ok update =>
            match List.lookup ks replaceMap with
            | some v => Except.ok ([Cell.str v] :: update)
            | none => Except.ok ([k] :: update)

/-- The request `replaceByColumn` sends: spreadsheet key, range
`indexSheetName!X:X` with `X = n2c(index+1)`, and the one-column update. -/
structure UpdateRequest where
  spreadsheetId : String
  range : String
  body : ValueRange
  deriving DecidableEq

/-- Source `(s *sheet) replaceByColumn`, up to the remote call: the request
that is about to be sent. -/
def sheet.replaceRequest (s : sheet) (column : String) (replaceMap : List (String × String)) :
    Except Panic UpdateRequest :=
  match s.headerIndexByColumn column with
  | Except.error p => Except.error p
  | Except.ok index =>
    match replaceLoop index replaceMap s.values with
    | Except.error p => Except.error p
    | Except.ok update =>
      Except.ok
        { spreadsheetId := s.sheetKey
          range := s.indexSheetName ++ "!" ++ n2c (index + 1) ++ ":" ++ n2c (index + 1)
          body := { majorDimension := "ROWS", values := update } }

/-! ## The remote services -/

/-- Source `drive.File`, the two fields the program reads. -/
structure DriveFile where
  id : String
  name : String
  deriving DecidableEq

/-- A remote call issued through `driveService` or `sheetsService`, with the
arguments the program passes. -/
inductive Call
  | filesList (q : String)
  | filesCreate (name mimeType : String) (parents : List String)
  | filesGet (fileId : String)
  | filesCopy (fileId name : String) (parents : List String)
  | filesDelete (fileId : String)
  | valuesGet (spreadsheetId range : String)
  | valuesAppend (spreadsheetId range : String) (body : ValueRange) (valueInputOption : String)
  | valuesUpdate (spreadsheetId range : String) (body : ValueRange) (valueInputOption : String)
  deriving DecidableEq

/-- The Drive and Sheets services as a state machine over an arbitrary state
`σ`: each operation answers with a result or a transport error (a message)
and moves to a new state. -/
structure Remote (σ : Type) where
  filesList : String → σ → Except String (List DriveFile) × σ
  filesCreate : String → String → List String → σ → Except String DriveFile × σ
  filesGet : String → σ → Except String DriveFile × σ
  filesCopy : String → String → List String → σ → Except String DriveFile × σ
  filesDelete : String → σ → Except String Unit × σ
  valuesGet : String → String → σ → Except String Grid × σ
  valuesAppend : String → String → ValueRange → String → σ → Except String Unit × σ
  valuesUpdate : String → String → ValueRange → String → σ → Except String Unit × σ

/-- Source `type SheetMerger struct`: the services and the two names. -/
structure SheetMerger (σ : Type) where
  service : Remote σ
  BackupFolderName : String
  IndexSheetName : String

/-- The `error` values the package returns, one constructor per
`fmt.Errorf` / `errors.Wrapf` site; `cause` is the wrapped error. -/
inductive Error
  | indexSheetKeyRequired
  | baseFolderIDRequired
  | baseSheetKeyRequired
  | diffSheetKeyRequired
  | searchFailed (cause baseFolderID : String)
  | createFolderFailed (cause parent name : String)
  | fileFetchFailed (cause key : String)
  | fileCopyFailed (cause key parent name : String)
  | deleteFolderFailed (cause id : String)
  | failInDuplicate
  | fetchFailed (cause key sheetname : String)
  | sameKey (sheetName : String)
  | sheetnameDuplicationBase (sheetName : String)
  | noBaseIndexRows (sheetName : String)
  | sheetnameDuplicationDiff (sheetName : String)
  | noDiffIndexRows (sheetName : String)
  | idDuplication (sheetName : String) (dupIDs : List Cell)
  | sheetAppendFailed (cause key : String)
  | sheetUpdateFailed (cause key : String)
  | sheetMergeFailed (cause : Error) (base diff sheetName : String)
  deriving DecidableEq

/-- How a call of an effectful function ends: a normal return with a value
(`err == nil`), a returned error, or a panic. -/
inductive Res (α : Type)
  | ok (a : α)
  | err (e : Error)
  | panic (p : Panic)
  deriving DecidableEq

/-- The remote state together with the calls issued so far, oldest first. -/
structure World (σ : Type) where
  state : σ
  trace : List Call

/-- An effectful computation: it may issue remote calls and ends as a `Res`. -/
def Eff (σ α : Type) : Type := World σ → Res α × World σ

/-- Sequencing: an error or a panic ends the computation. -/
def Eff.bind {σ α β : Type} (m : Eff σ α) (f : α → Eff σ β) : Eff σ β :=
  fun w =>
    match m w with
    | (Res.ok a, w1) => f a w1
    | (Res.err e, w1) => (Res.err e, w1)
    | (Res.panic p, w1) => (Res.panic p, w1)

instance (σ : Type) : Monad (Eff σ) where
  pure a := fun w => (Res.ok a, w)
  bind := Eff.bind

/-- Go `return err` with a non-nil error. -/
def Eff.fail {σ α : Type} (e : Error) : Eff σ α :=
  fun w => (Res.err e, w)

/-- A pure step that may panic. -/
def Eff.ofExcept {σ α : Type} : Except Panic α → Eff σ α
  | Except.ok a => fun w => (Res.ok a, w)
  | Except.error p => fun w => (Res.panic p, w)

/-- Issue a remote call: log it, run it on the remote state, hand back the
service's answer. -/
def Eff.call {σ β : Type} (c : Call) (op : σ → Except String β × σ) : Eff σ (Except String β) :=
  fun w => (Res.ok (op w.state).1, { state := (op w.state).2, trace := w.trace ++ [c] })

/-- Source `(sm *SheetMerger) newSheet(key, sheetName)`. -/
def SheetMerger.newSheet {σ : Type} (sm : SheetMerger σ) (key sheetName : String) :
    Eff σ sheet := do
  let r ← Eff.call (Call.valuesGet key sheetName) (sm.service.valuesGet key sheetName)
  match r with
  | Except.error cause => Eff.fail (Error.fetchFailed cause key sheetName)
  | Except.ok values =>
    pure
      { sheetKey := key
        sheetName := sheetName
        indexSheetName := sm.IndexSheetName
        headersArr := none
        values := values
        rowsMap := none }

/-- Source `(s *sheet) refresh`: fetch the grid again and drop both caches. -/
def sheet.refresh {σ : Type} (service : Remote σ) (s : sheet) : Eff σ sheet := do
  let r ← Eff.call (Call.valuesGet s.sheetKey s.sheetName)
    (service.valuesGet s.sheetKey s.sheetName)
  match r with
  | Except.error cause => Eff.fail (Error.fetchFailed cause s.sheetKey s.sheetName)
  | Except.ok values => pure { s with values := values, rowsMap := none, headersArr := none }

/-- Source `(s *sheet) merge(diff *sheet)`: one append of `diff`'s logical
rows, laid out by `s.headers()`, at `sheetName!A<len(values)+2>`. -/
def sheet.merge {σ : Type} (service : Remote σ) (s diff : sheet) : Eff σ (sheet × sheet) := do
  let (hs, s1) ← Eff.ofExcept s.headers
  let (body, diff1) ← Eff.ofExcept (diff.headersToValueRange hs)
  let range := s1.sheetName ++ "!A" ++ toString (s1.values.length + 2)
  let r ← Eff.call (Call.valuesAppend s1.sheetKey range body "USER_ENTERED")
    (service.valuesAppend s1.sheetKey range body "USER_ENTERED")
  match r with
  | Except.error cause => Eff.fail (Error.sheetAppendFailed cause s1.sheetKey)
  | Except.ok _ => pure (s1, diff1)

/-- Source `(s *sheet) replaceByColumn(column, replaceMap)`: build the
one-column update and send it. -/
def sheet.replaceByColumn {σ : Type} (service : Remote σ) (s : sheet) (column : String)
    (replaceMap : List (String × String)) : Eff σ Unit := do
  let req ← Eff.ofExcept (s.replaceRequest column replaceMap)
  let r ← Eff.call (Call.valuesUpdate req.spreadsheetId req.range req.body "USER_ENTERED")
    (service.valuesUpdate req.spreadsheetId req.range req.body "USER_ENTERED")
  match r with
  | Except.error cause => Eff.fail (Error.sheetUpdateFailed cause s.sheetKey)
  | Except.ok _ => pure ()

/-! ## Merge -/

/-- The two filtering loops of `mergeByIndexSheet`:
`if row["sheetname"].(string) == sheetName { append }`. -/
def targetIndexRows (sheetName : String) : List Row → Except Panic (List Row)
  | [] => Except.ok []
  | row :: rest =>
    match (rowGet row "sheetname").assertString with
    | Except.error p => Except.error p
    | Except.ok n =>
      match targetIndexRows sheetName rest with
      | Except.error p => Except.error p
      | Except.ok r => Except.ok (if n = sheetName then row :: r else r)

/-- Go `rows[0]["key"].(string)`. -/
def firstKey : List Row → Except Panic String
  | [] => Except.error Panic.indexOutOfRange
  | row :: _ => (rowGet row "key").assertString

/-- Lines 266-275 of `mergeByIndexSheet`: the duplicate check on `id` between
the two fetched tables, then the append. -/
def mergeTables {σ : Type} (service : Remote σ) (baseSheet diffSheet : sheet)
    (sheetName : String) : Eff σ Unit := do
  let (dupIDs, baseSheet1, diffSheet1) ← Eff.ofExcept (baseSheet.dupCheckByColumn diffSheet "id")
  if 0 < dupIDs.length then
    Eff.fail (Error.idDuplication sheetName dupIDs)
  else do
    let _ ← sheet.merge service baseSheet1 diffSheet1
    pure ()

/-- Lines 229-255 of `mergeByIndexSheet`, which issue no remote call: the
same-key check and, in each index sheet in turn, the search of the logical
rows named `sheetName` with the two checks on their number.  Yields the two
index sheets (caches filled) and the two one-element row slices. -/
def findIndexRows (baseIndexSheet diffIndexSheet : sheet) (sheetName : String) :
    Res (sheet × sheet × List Row × List Row) :=
  if baseIndexSheet.sheetKey = diffIndexSheet.sheetKey then
    Res.err (Error.sameKey sheetName)
  else
    match baseIndexSheet.rows with
    | Except.error p => Res.panic p
    | Except.ok (baseRows, baseIndexSheet1) =>
      match targetIndexRows sheetName baseRows with
      | Except.error p => Res.panic p
      | Except.ok targetBaseIndexRows =>
        if 1 < targetBaseIndexRows.length then
          Res.err (Error.sheetnameDuplicationBase sheetName)
        else if 0 = targetBaseIndexRows.length then
          Res.err (Error.noBaseIndexRows sheetName)
        else
          match diffIndexSheet.rows with
          | Except.error p => Res.panic p
          | Except.ok (diffRows, diffIndexSheet1) =>
            match targetIndexRows sheetName diffRows with
            | Except.error p => Res.panic p
            | Except.ok targetDiffIndexRows =>
              if 1 < targetDiffIndexRows.length then
                Res.err (Error.sheetnameDuplicationDiff sheetName)
              else if 0 = targetDiffIndexRows.length then
                Res.err (Error.noDiffIndexRows sheetName)
              else
                Res.ok (baseIndexSheet1, diffIndexSheet1, targetBaseIndexRows,
                  targetDiffIndexRows)

/-- A step that issues no remote call. -/
def Eff.ofRes {σ α : Type} (r : Res α) : Eff σ α :=
  fun w => (r, w)

/-- Lines 229-264 of `mergeByIndexSheet`: `findIndexRows`, then the fetch of
the base table and of the diff table under the keys of the two index rows.
Yields the two index sheets and the two fetched tables. -/
def SheetMerger.resolveTables {σ : Type} (sm : SheetMerger σ)
    (baseIndexSheet diffIndexSheet : sheet) (sheetName : String) :
    Eff σ (sheet × sheet × sheet × sheet) := do
  let (baseIndexSheet1, diffIndexSheet1, targetBaseIndexRows, targetDiffIndexRows) ←
    Eff.ofRes (findIndexRows baseIndexSheet diffIndexSheet sheetName)
  let baseKey ← Eff.ofExcept (firstKey targetBaseIndexRows)
  let baseSheet ← sm.newSheet baseKey sheetName
  let diffKey ← Eff.ofExcept (firstKey targetDiffIndexRows)
  let diffSheet ← sm.newSheet diffKey sheetName
  pure (baseIndexSheet1, diffIndexSheet1, baseSheet, diffSheet)

/-- Source `(sm *SheetMerger) mergeByIndexSheet`: `resolveTables` (lines
229-264) followed by `mergeTables` (lines 266-275).  On a normal return the
two index sheets are handed back with their caches filled. -/
def SheetMerger.mergeByIndexSheet {σ : Type} (sm : SheetMerger σ)
    (baseIndexSheet diffIndexSheet : sheet) (sheetName : String) : Eff σ (sheet × sheet) := do
  let (baseIndexSheet1, diffIndexSheet1, baseSheet, diffSheet) ←
    sm.resolveTables baseIndexSheet diffIndexSheet sheetName
  mergeTables sm.service baseSheet diffSheet sheetName
  pure (baseIndexSheet1, diffIndexSheet1)

/-- The loop of `MergeBySheetKey` over the requested sheet names. -/
def mergeLoop {σ : Type} (sm : SheetMerger σ) :
    sheet → sheet → List String → Eff σ Unit
  | _, _, [] => pure ()
  | baseIndexSheet, diffIndexSheet, sheetName :: rest =>
    fun w =>
      match sm.mergeByIndexSheet baseIndexSheet diffIndexSheet sheetName w with
      | (Res.ok (b1, d1), w1) => mergeLoop sm b1 d1 rest w1
      | (Res.err e, w1) =>
        (Res.err (Error.sheetMergeFailed e baseIndexSheet.sheetKey diffIndexSheet.sheetKey
          sheetName), w1)
      | (Res.panic p, w1) => (Res.panic p, w1)

/-- Source `(sm *SheetMerger) MergeBySheetKey`. -/
def SheetMerger.MergeBySheetKey {σ : Type} (sm : SheetMerger σ)
    (baseSheetKey diffSheetKey : String) (sheetNames : List String) : Eff σ Unit := do
  if baseSheetKey = "" then Eff.fail Error.baseSheetKeyRequired
  else if diffSheetKey = "" then Eff.fail Error.diffSheetKeyRequired
  else do
    let baseIndexSheet ← sm.newSheet baseSheetKey sm.IndexSheetName
    let diffIndexSheet ← sm.newSheet diffSheetKey sm.IndexSheetName
    mergeLoop sm baseIndexSheet diffIndexSheet sheetNames

/-! ## Backup -/

/-- The loop of `Backup` over `folderSearch.Files`: `backupFolderID` becomes
the id of each folder named `sm.BackupFolderName` in turn; it starts as `""`. -/
def findBackupFolderID (backupFolderName : String) : List DriveFile → String → String
  | [], backupFolderID => backupFolderID
  | f :: rest, backupFolderID =>
    if f.name = backupFolderName then findBackupFolderID backupFolderName rest f.id
    else findBackupFolderID backupFolderName rest backupFolderID

/-- The step `if sheet, err := sm.newSheet(...); err == nil { backupIndexSheet = sheet }`
of the copy loop: a fetch error leaves `backupIndexSheet` nil. -/
def tryNewSheet {σ : Type} (sm : SheetMerger σ) (key : String) : Eff σ (Option sheet) :=
  fun w =>
    match sm.newSheet key sm.IndexSheetName w with
    | (Res.ok s, w1) => (Res.ok (some s), w1)
    | (Res.err _, w1) => (Res.ok none, w1)
    | (Res.panic p, w1) => (Res.panic p, w1)

/-- The copy loop of `Backup` over `append([]string{indexSheetKey}, keys...)`:
fetch the file's name, copy it into the new folder, open the first copy that
can be opened as the backup index sheet, and record `replaceIDMap[key]`. -/
def backupCopyLoop {σ : Type} (sm : SheetMerger σ) (backupFolderId : String) :
    List String → Option sheet → List (String × String) →
      Eff σ (Option sheet × List (String × String))
  | [], backupIndexSheet, replaceIDMap => pure (backupIndexSheet, replaceIDMap)
  | key :: rest, backupIndexSheet, replaceIDMap => do
    let r ← Eff.call (Call.filesGet key) (sm.service.filesGet key)
    match r with
    | Except.error cause => Eff.fail (Error.fileFetchFailed cause key)
    | Except.ok file =>
      let c ← Eff.call (Call.filesCopy key file.name [backupFolderId])
        (sm.service.filesCopy key file.name [backupFolderId])
      match c with
      | Except.error cause => Eff.fail (Error.fileCopyFailed cause key backupFolderId file.name)
      | Except.ok backupFile =>
        let backupIndexSheet1 ←
          (match backupIndexSheet with
            | some s => pure (some s)
            | none => tryNewSheet sm backupFile.id)
        backupCopyLoop sm backupFolderId rest backupIndexSheet1
          ((key, backupFile.id) :: replaceIDMap)

/-- The final loop of `Backup` over the original index's keys: at the first
key found in `dupCheckMap` the new folder is deleted and an error returned. -/
def backupVerifyLoop {σ : Type} (service : Remote σ) (backupFolderId : String)
    (dupCheckMap : List String) : List String → Eff σ Unit
  | [] => pure ()
  | k :: rest =>
    if k ∈ dupCheckMap then do
      let r ← Eff.call (Call.filesDelete backupFolderId) (service.filesDelete backupFolderId)
      match r with
      | Except.error cause => Eff.fail (Error.deleteFolderFailed cause backupFolderId)
      | Except.ok _ => Eff.fail Error.failInDuplicate
    else backupVerifyLoop service backupFolderId dupCheckMap rest

/-- Lines 158-176 of `Backup`: the check that no key of the original index
is still present in the refreshed backup index. -/
def backupVerify {σ : Type} (service : Remote σ) (indexSheet backupIndexSheet : sheet)
    (backupFolderId : String) : Eff σ Unit := do
  let (dupCheckMap, _) ← Eff.ofExcept (backupIndexSheet.uniqueValuesByColumn "key")
  let (keys, _) ← Eff.ofExcept (indexSheet.uniqueValuesByColumn "key")
  backupVerifyLoop service backupFolderId dupCheckMap keys

/-- Lines 64-156 of `Backup`: check the two required parameters, find the
backup folder, create the new folder under it, copy the index document and
every document it references, rewrite the `key` column of the copied index and
refresh it.  Yields the original index sheet, the refreshed backup index sheet
and the id of the newly created folder. -/
def SheetMerger.backupPrepare {σ : Type} (sm : SheetMerger σ)
    (indexSheetKey baseFolderID backupFolderName : String) : Eff σ (sheet × sheet × String) := do
  if indexSheetKey = "" then Eff.fail Error.indexSheetKeyRequired
  else if baseFolderID = "" then Eff.fail Error.baseFolderIDRequired
  else do
    let q := "'" ++ baseFolderID ++
      "' in parents and mimeType = 'application/vnd.google-apps.folder'"
    let l ← Eff.call (Call.filesList q) (sm.service.filesList q)
    match l with
    | Except.error cause => Eff.fail (Error.searchFailed cause baseFolderID)
    | Except.ok files =>
      let backupFolderID := findBackupFolderID sm.BackupFolderName files ""
      let f ← Eff.call
        (Call.filesCreate backupFolderName "application/vnd.google-apps.folder" [backupFolderID])
        (sm.service.filesCreate backupFolderName "application/vnd.google-apps.folder"
          [backupFolderID])
      match f with
      | Except.error cause =>
        Eff.fail (Error.createFolderFailed cause backupFolderID backupFolderName)
      | Except.ok backupFolder =>
        let indexSheet ← sm.newSheet indexSheetKey sm.IndexSheetName
        let (keys, indexSheet1) ← Eff.ofExcept (indexSheet.uniqueValuesByColumn "key")
        let (backupIndexSheet, replaceIDMap) ←
          backupCopyLoop sm backupFolder.id (indexSheetKey :: keys) none []
        match backupIndexSheet with
        | none => Eff.ofExcept (Except.error Panic.nilDereference)
        | some bs =>
          sheet.replaceByColumn sm.service bs "key" replaceIDMap
          let bs1 ← sheet.refresh sm.service bs
          pure (indexSheet1, bs1, backupFolder.id)

/-- Source `(sm *SheetMerger) Backup`: `backupPrepare` (lines 64-156) followed
by `backupVerify` (lines 158-176). -/
def SheetMerger.Backup {σ : Type} (sm : SheetMerger σ)
    (indexSheetKey baseFolderID backupFolderName : String) : Eff σ Unit := do
  let (indexSheet, backupIndexSheet, backupFolderId) ←
    sm.backupPrepare indexSheetKey baseFolderID backupFolderName
  backupVerify sm.service indexSheet backupIndexSheet backupFolderId

/-- A sheet as `newSheet` builds it from a fetched grid: both caches nil. -/
def sheet.ofGrid (key sheetName indexSheetName : String) (values : Grid) : sheet :=
  { sheetKey := key
    sheetName := sheetName
    indexSheetName := indexSheetName
    headersArr := none
    values := values
    rowsMap := none }

/-! ## Specification-side vocabulary for the tabular view -/

/-- Position of the last header cell whose text is `h`, if any. -/
def lastIndexOf (header : List Cell) (h : String) : Option Nat :=
  ((List.range header.length).filter (fun k => header[k]? = some (Cell.str h))).getLast?

/-- The value a data row `raw` carries under the header name `h`: nothing
(nil) for the blank name and for a name no header cell has; otherwise the
cell below the last column named `h`, or `""` when the row stops before that
column. -/
def cellUnder (header raw : List Cell) (h : String) : Cell :=
  if h = "" then Cell.null
  else
    match lastIndexOf header h with
    | none => Cell.null
    | some k =>
      match raw[k]? with
      | none => Cell.str ""
      | some c => c

/-- A data row belongs to the logical view: its value under `id` is not the
empty string. -/
def keepRow (header raw : List Cell) : Bool :=
  decide (cellUnder header raw "id" ≠ Cell.str "")

/-- The row map the model builds for one data row under a text header. -/
def logicalRow (hs : List String) (raw : List Cell) : Row :=
  match buildRow hs raw (headerIndexesFrom 0 (hs.map Cell.str)) [] with
  | Except.ok t => t
  | Except.error _ => []

/-- The count map after counting the values `L`: distinct keys, each bound to
its number of occurrences in `L`. -/
def CountInv (cm : List (Cell × Nat)) (L : List Cell) : Prop :=
  (cm.map Prod.fst).Nodup ∧
    ∀ v, countGet cm v = if L.count v = 0 then none else some (L.count v)

/-- The update loop of `replaceByColumn` seen on the cells `values[index]` it
reads, `none` standing for a raw row that stops before `index`. -/
def replaceCells (replaceMap : List (String × String)) : List (Option Cell) → Except Panic Grid
  | [] => Except.ok []
  | none :: _ => Except.error Panic.indexOutOfRange
  | some k :: rest =>
    match k.assertString with
    | Except.error p => Except.error p
    | Except.ok ks =>
      match replaceCells replaceMap rest with
      | Except.error p => Except.error p
      | Except.ok update =>
        match List.lookup ks replaceMap with
        | some v => Except.ok ([Cell.str v] :: update)
        | none => Except.ok ([k] :: update)

/-- Number of logical rows of an index sheet whose `sheetname` is the
requested name. -/
def sheetnameMatches (sheetName : String) (rows : List Row) : Nat :=
  (rows.filter (fun r => decide (rowGet r "sheetname" = Cell.str sheetName))).length

/-- A remote call is an append write. -/
def Call.isAppend : Call → Bool
  | Call.valuesAppend _ _ _ _ => true
  | _ => false

/-- The world at the start of a run: a remote state and no call issued yet. -/
def World.init {σ : Type} (st : σ) : World σ :=
  { state := st, trace := [] }

/-- A stateless remote for the worked examples: document `K1` holds the ids
`1, 2`, document `K2` the id `2`, every other document is an index sheet with
the one row `users ↦ K1`; copies get the id `copy-of-<key>`, the created folder
the id `F`; writes are accepted and change nothing. -/
def exampleRemote : Remote Unit where
  filesList := fun _ st => (Except.ok [{ id := "BK", name := "backup" }], st)
  filesCreate := fun name _ _ st => (Except.ok { id := "F", name := name }, st)
  filesGet := fun key st => (Except.ok { id := key, name := "doc" }, st)
  filesCopy := fun key name _ st => (Except.ok { id := "copy-of-" ++ key, name := name }, st)
  filesDelete := fun _ st => (Except.ok (), st)
  valuesGet := fun key _ st =>
    (if key = "K1" then Except.ok [[Cell.str "id"], [Cell.str "1"], [Cell.str "2"]]
     else if key = "K2" then Except.ok [[Cell.str "id"], [Cell.str "2"]]
     else
       Except.ok
         [[Cell.str "id", Cell.str "sheetname", Cell.str "key"],
           [Cell.str "1", Cell.str "users", Cell.str "K1"]], st)
  valuesAppend := fun _ _ _ _ st => (Except.ok (), st)
  valuesUpdate := fun _ _ _ _ st => (Except.ok (), st)

/-- The merger of the worked examples, with the default names of
`NewSheetMerger`. -/
def exampleMerger : SheetMerger Unit :=
  { service := exampleRemote, BackupFolderName := "backup", IndexSheetName := "table_map" }

/-- An index sheet with the one row `users ↦ key`. -/
def exampleIndex (sheetKey key : String) : sheet :=
  sheet.ofGrid sheetKey "table_map" "table_map"
    [[Cell.str "id", Cell.str "sheetname", Cell.str "key"],
      [Cell.str "1", Cell.str "users", Cell.str key]]

/-! ## Column letters -/

theorem letter_data (j : Int) : (letter j).data = [Char.ofNat (65 + j).toNat] := rfl

theorem n2cLoop_unfold (i : Int) (r : String) :
    n2cLoop i r =
      if 0 < Int.tdiv (i - 1) 26 then
        n2cLoop (Int.tdiv (i - 1) 26) (letter (Int.tmod (i - 1) 26) ++ r)
      else letter (Int.tmod (i - 1) 26) ++ r := by
  rw [n2cLoop]

/-- Code point of the letter for a remainder in `0..25`. -/
theorem letter_char (j : Int) (h0 : 0 ≤ j) (h1 : j < 26) :
    ((Char.ofNat (65 + j).toNat).toNat : Int) = 65 + j ∧
      'A' ≤ Char.ofNat (65 + j).toNat ∧ Char.ofNat (65 + j).toNat ≤ 'Z' := by
  obtain ⟨m, rfl⟩ := Int.eq_ofNat_of_zero_le h0
  have hm : m < 26 := by omega
  interval_cases m <;> decide

theorem n2cLoop_step (i : Int) (r : String) (h : 0 < Int.tdiv (i - 1) 26) :
    n2cLoop i r = n2cLoop (Int.tdiv (i - 1) 26) (letter (Int.tmod (i - 1) 26) ++ r) := by
  rw [n2cLoop_unfold, if_pos h]

theorem n2cLoop_stop (i : Int) (r : String) (h : ¬ 0 < Int.tdiv (i - 1) 26) :
    n2cLoop i r = letter (Int.tmod (i - 1) 26) ++ r := by
  rw [n2cLoop_unfold, if_neg h]

/-- Loop invariant of `n2c`: for `1 ≤ i` the loop puts in front of `r` a
non-empty block of capital letters whose bijective base-26 value is `i`. -/
theorem n2cLoop_spec (k : Nat) : ∀ (i : Int) (r : String), 1 ≤ i → i.toNat ≤ k →
    ∃ L : List Char, (n2cLoop i r).data = L ++ r.data ∧ L ≠ [] ∧
      (∀ c ∈ L, 'A' ≤ c ∧ c ≤ 'Z') ∧
      L.foldl (fun acc c => acc * 26 + ((c.toNat : Int) - 64)) 0 = i := by
  induction k with
  | zero => intro i r h1 h2; omega
  | succ k ih =>
    intro i r h1 h2
    have hd : Int.tdiv (i - 1) 26 = (i - 1) / 26 :=
      Int.tdiv_eq_ediv (by omega) (by decide)
    have hm : Int.tmod (i - 1) 26 = (i - 1) % 26 :=
      Int.tmod_eq_emod (by omega) (by decide)
    have hj0 : 0 ≤ (i - 1) % 26 := Int.emod_nonneg _ (by decide)
    have hj1 : (i - 1) % 26 < 26 := Int.emod_lt_of_pos _ (by decide)
    obtain ⟨hc1, hc2, hc3⟩ := letter_char ((i - 1) % 26) hj0 hj1
    by_cases h : 0 < Int.tdiv (i - 1) 26
    · rw [n2cLoop_step i r h]
      obtain ⟨L, hL, hne, hlet, hval⟩ :=
        ih (Int.tdiv (i - 1) 26) (letter (Int.tmod (i - 1) 26) ++ r) (by omega) (by omega)
      refine ⟨L ++ [Char.ofNat (65 + (i - 1) % 26).toNat], ?_, by simp, ?_, ?_⟩
      · rw [hL, hm]; simp [letter_data, String.data_append]
      · intro c hc
        rcases List.mem_append.1 hc with hc | hc
        · exact hlet c hc
        · rw [List.mem_singleton.1 hc]; exact ⟨hc2, hc3⟩
      · rw [List.foldl_append, hval, hd]
        simp only [List.foldl_cons, List.foldl_nil]
        rw [hc1]; omega
    · rw [n2cLoop_stop i r h]
      refine ⟨[Char.ofNat (65 + (i - 1) % 26).toNat], ?_, by simp, ?_, ?_⟩
      · rw [hm]; simp [letter_data, String.data_append]
      · intro c hc
        rw [List.mem_singleton.1 hc]; exact ⟨hc2, hc3⟩
      · simp only [List.foldl_cons, List.foldl_nil]
        rw [hc1]; omega

/-- C3: for every `n ≥ 1`, `n2c n` is a non-empty string over `A..Z` whose
bijective base-26 value (A = 1, ..., Z = 26, most significant letter first) is
`n`; in particular 1, 26, 27, 52, 53, 702, 703 give A, Z, AA, AZ, BA, ZZ, AAA. -/
theorem n2c_spreadsheet_column :
    (∀ n : Int, 1 ≤ n →
      n2c n ≠ "" ∧ (∀ c ∈ (n2c n).data, 'A' ≤ c ∧ c ≤ 'Z') ∧ bijValue (n2c n) = n) ∧
    n2c 1 = "A" ∧ n2c 26 = "Z" ∧ n2c 27 = "AA" ∧ n2c 52 = "AZ" ∧ n2c 53 = "BA" ∧
    n2c 702 = "ZZ" ∧ n2c 703 = "AAA" := by
  refine ⟨?_, ?_, ?_, ?_, ?_, ?_, ?_, ?_⟩
  · intro n hn
    obtain ⟨L, hL, hne, hlet, hval⟩ := n2cLoop_spec n.toNat n "" hn (le_refl _)
    have hdata : (n2c n).data = L := by simpa [n2c] using hL
    refine ⟨?_, ?_, ?_⟩
    · intro h
      rw [h] at hdata
      exact hne hdata.symm
    · rw [hdata]; exact hlet
    · unfold bijValue; rw [hdata]; exact hval
  · rw [n2c, n2cLoop_stop _ _ (by decide)]; decide
  · rw [n2c, n2cLoop_stop _ _ (by decide)]; decide
  · rw [n2c, n2cLoop_step _ _ (by decide), n2cLoop_stop _ _ (by decide)]; decide
  · rw [n2c, n2cLoop_step _ _ (by decide), n2cLoop_stop _ _ (by decide)]; decide
  · rw [n2c, n2cLoop_step _ _ (by decide), n2cLoop_stop _ _ (by decide)]; decide
  · rw [n2c, n2cLoop_step _ _ (by decide), n2cLoop_stop _ _ (by decide)]; decide
  · rw [n2c, n2cLoop_step _ _ (by decide), n2cLoop_step _ _ (by decide),
      n2cLoop_stop _ _ (by decide)]; decide

/-- Witness for C3 at `n = 28` (column `AB`). -/
theorem n2c_spreadsheet_column_witness :
    (1 : Int) ≤ 28 ∧
      (n2c 28 ≠ "" ∧ (∀ c ∈ (n2c 28).data, 'A' ≤ c ∧ c ≤ 'Z') ∧ bijValue (n2c 28) = 28) :=
  ⟨by decide, n2c_spreadsheet_column.1 28 (by decide)⟩

/-! ## Lemmas on effectful computations -/

theorem Eff.bind_of_ok {σ α β : Type} (m : Eff σ α) (f : α → Eff σ β) (w w1 : World σ)
    (a : α) (h : m w = (Res.ok a, w1)) : (m >>= f) w = f a w1 := by
  show Eff.bind m f w = _
  unfold Eff.bind
  rw [h]

theorem Eff.bind_of_err {σ α β : Type} (m : Eff σ α) (f : α → Eff σ β) (w w1 : World σ)
    (e : Error) (h : m w = (Res.err e, w1)) : (m >>= f) w = (Res.err e, w1) := by
  show Eff.bind m f w = _
  unfold Eff.bind
  rw [h]

theorem Eff.bind_of_panic {σ α β : Type} (m : Eff σ α) (f : α → Eff σ β) (w w1 : World σ)
    (p : Panic) (h : m w = (Res.panic p, w1)) : (m >>= f) w = (Res.panic p, w1) := by
  show Eff.bind m f w = _
  unfold Eff.bind
  rw [h]

theorem Eff.bind_eq_ok {σ α β : Type} (m : Eff σ α) (f : α → Eff σ β) (w w2 : World σ)
    (b : β) (h : (m >>= f) w = (Res.ok b, w2)) :
    ∃ a w1, m w = (Res.ok a, w1) ∧ f a w1 = (Res.ok b, w2) := by
  cases hm : m w with
  | mk r w1 =>
    cases r with
    | ok a => exact ⟨a, w1, rfl, by rw [← Eff.bind_of_ok m f w w1 a hm]; exact h⟩
    | err e => rw [Eff.bind_of_err m f w w1 e hm] at h; cases h
    | panic p => rw [Eff.bind_of_panic m f w w1 p hm] at h; cases h

theorem Eff.ofExcept_ok {σ α : Type} (a : α) (w : World σ) :
    (Eff.ofExcept (Except.ok a) : Eff σ α) w = (Res.ok a, w) := rfl

theorem Eff.ofExcept_error {σ α : Type} (p : Panic) (w : World σ) :
    (Eff.ofExcept (Except.error p) : Eff σ α) w = (Res.panic p, w) := rfl

theorem Eff.ofExcept_eq_ok {σ α : Type} (x : Except Panic α) (w w1 : World σ) (a : α)
    (h : (Eff.ofExcept x : Eff σ α) w = (Res.ok a, w1)) : x = Except.ok a ∧ w1 = w := by
  cases x with
  | ok b =>
    rw [Eff.ofExcept_ok] at h
    simp only [Prod.mk.injEq, Res.ok.injEq] at h
    exact ⟨by rw [h.1], h.2.symm⟩
  | error p => rw [Eff.ofExcept_error] at h; cases h

theorem Eff.fail_apply {σ α : Type} (e : Error) (w : World σ) :
    (Eff.fail e : Eff σ α) w = (Res.err e, w) := rfl

theorem Eff.pure_apply {σ α : Type} (a : α) (w : World σ) :
    (pure a : Eff σ α) w = (Res.ok a, w) := rfl

/-- A successful `newSheet` has issued exactly one fetch and built the sheet
from the grid the service answered. -/
theorem newSheet_eq_ok {σ : Type} (sm : SheetMerger σ) (key name : String) (w w1 : World σ)
    (s : sheet) (h : sm.newSheet key name w = (Res.ok s, w1)) :
    (∃ g, s = sheet.ofGrid key name sm.IndexSheetName g) ∧
      w1.trace = w.trace ++ [Call.valuesGet key name] := by
  unfold SheetMerger.newSheet at h
  obtain ⟨r, w2, hcall, hrest⟩ := Eff.bind_eq_ok _ _ _ _ _ h
  have hw2 : w2.trace = w.trace ++ [Call.valuesGet key name] := by
    simp only [Eff.call, Prod.mk.injEq] at hcall
    rw [← hcall.2]
  cases r with
  | error cause => simp only [Eff.fail_apply, Prod.mk.injEq] at hrest; cases hrest.1
  | ok values =>
    simp only [Eff.pure_apply, Prod.mk.injEq, Res.ok.injEq] at hrest
    refine ⟨⟨values, ?_⟩, ?_⟩
    · rw [← hrest.1]; rfl
    · rw [← hrest.2]; exact hw2

/-! ## Lemmas on the tabular view -/

theorem assertStrings_map_str (hs : List String) :
    assertStrings (hs.map Cell.str) = Except.ok hs := by
  induction hs with
  | nil => rfl
  | cons h hs ih => simp [assertStrings, Cell.assertString, ih]

theorem headerIndexesFrom_eq (hs : List String) : ∀ i : Nat,
    headerIndexesFrom i (hs.map Cell.str) =
      ((List.range hs.length).filter (fun k => decide (hs[k]? ≠ some ""))).map (fun k => k + i) := by
  induction hs with
  | nil => intro i; simp [headerIndexesFrom]
  | cons h hs ih =>
    intro i
    rw [List.length_cons, List.range_succ_eq_map]
    simp only [List.map_cons, headerIndexesFrom, ih (i + 1), List.filter_cons, List.filter_map]
    by_cases hh : h = ""
    · subst hh
      simp [Function.comp_def, Nat.add_assoc, Nat.add_comm 1]
    · have : Cell.str h ≠ Cell.str "" := fun e => hh (Cell.str.inj e)
      simp [Function.comp_def, Nat.add_assoc, Nat.add_comm 1, this, hh]

theorem rowGet_rowSet (t : Row) (k : String) (v : Cell) (h : String) :
    rowGet (rowSet t k v) h = if h = k then v else rowGet t h := by
  unfold rowGet rowSet
  by_cases e : h = k
  · subst e; simp [List.lookup]
  · have : (h == k) = false := by simpa using e
    simp [List.lookup, this, e]

theorem getLast?_cons_eq {α : Type} (a : α) (l : List α) :
    (a :: l).getLast? = some (l.getLast?.getD a) := by
  cases l with
  | nil => rfl
  | cons b l => simp [List.getLast?_cons_cons, List.getLast?_eq_getLast, List.getLast?]

/-- The inner loop of `rows` never panics on in-range positions, and the map
it builds binds each name to the cell under the last listed position that
carries that name. -/
theorem buildRow_spec (hs : List String) (raw : List Cell) :
    ∀ (ks : List Nat) (t : Row), (∀ k ∈ ks, k < hs.length) →
      ∃ t1, buildRow hs raw ks t = Except.ok t1 ∧
        ∀ h, rowGet t1 h =
          match (ks.filter (fun k => decide (hs[k]? = some h))).getLast? with
          | some k => (match raw[k]? with | none => Cell.str "" | some c => c)
          | none => rowGet t h := by
  intro ks
  induction ks with
  | nil => intro t _; exact ⟨t, rfl, fun h => by simp⟩
  | cons k ks ih =>
    intro t hk
    have hlt : k < hs.length := hk k (List.mem_cons_self _ _)
    have hget : hs[k]? = some hs[k] := List.getElem?_eq_getElem hlt
    obtain ⟨t1, ht1, hspec⟩ :=
      ih (rowSet t hs[k] (match raw[k]? with | none => Cell.str "" | some c => c))
        (fun j hj => hk j (List.mem_cons_of_mem _ hj))
    refine ⟨t1, ?_, ?_⟩
    · rw [← ht1]
      simp only [buildRow, hget]
      cases raw[k]? <;> rfl
    · intro h
      rw [hspec h, List.filter_cons]
      by_cases e : hs[k]? = some h
      · have e2 : h = hs[k] := by rw [hget] at e; exact (Option.some.inj e).symm
        simp only [e, decide_True, if_true, getLast?_cons_eq]
        cases hl : (ks.filter (fun k => decide (hs[k]? = some h))).getLast? with
        | none => simp [rowGet_rowSet, e2]
        | some j => simp
      · have e2 : ¬ h = hs[k] := by
          intro e3; apply e; rw [hget, e3]
        simp only [e, decide_False, Bool.false_eq_true, if_false]
        cases hl : (ks.filter (fun k => decide (hs[k]? = some h))).getLast? with
        | none => simp [rowGet_rowSet, e2]
        | some j => simp

theorem lastIndexOf_map_str (hs : List String) (h : String) :
    lastIndexOf (hs.map Cell.str) h =
      ((List.range hs.length).filter (fun k => decide (hs[k]? = some h))).getLast? := by
  unfold lastIndexOf
  rw [List.length_map]
  congr 1
  apply List.filter_congr
  intro k _
  rw [List.getElem?_map]
  cases hs[k]? with
  | none => simp
  | some a => simp

/-- The row map built for a data row under a text header binds every name to
`cellUnder`. -/
theorem buildRow_header (hs : List String) (raw : List Cell) :
    ∃ t, buildRow hs raw (headerIndexesFrom 0 (hs.map Cell.str)) [] = Except.ok t ∧
      ∀ h, rowGet t h = cellUnder (hs.map Cell.str) raw h := by
  have hidx : headerIndexesFrom 0 (hs.map Cell.str) =
      (List.range hs.length).filter (fun k => decide (hs[k]? ≠ some "")) := by
    rw [headerIndexesFrom_eq]; simp
  obtain ⟨t, ht, hspec⟩ := buildRow_spec hs raw
    ((List.range hs.length).filter (fun k => decide (hs[k]? ≠ some ""))) []
    (fun k hk => List.mem_range.1 (List.mem_filter.1 hk).1)
  refine ⟨t, by rw [hidx]; exact ht, ?_⟩
  intro h
  rw [hspec h, List.filter_filter]
  unfold cellUnder
  by_cases hh : h = ""
  · subst hh
    have : (List.range hs.length).filter
        (fun a => decide (hs[a]? = some "") && decide (hs[a]? ≠ some "")) = [] := by
      apply List.filter_eq_nil_iff.2
      intro a _
      by_cases e : hs[a]? = some "" <;> simp [e]
    rw [this]
    simp [rowGet]
  · rw [if_neg hh, lastIndexOf_map_str]
    have : (List.range hs.length).filter
        (fun a => decide (hs[a]? = some h) && decide (hs[a]? ≠ some "")) =
        (List.range hs.length).filter (fun k => decide (hs[k]? = some h)) := by
      apply List.filter_congr
      intro a _
      by_cases e : hs[a]? = some h
      · have : hs[a]? ≠ some "" := by rw [e]; intro e2; exact hh (Option.some.inj e2)
        simp [e, hh]
      · simp [e]
    rw [this]
    cases ((List.range hs.length).filter (fun k => decide (hs[k]? = some h))).getLast? with
    | none => simp [rowGet]
    | some k => rfl

theorem buildRow_logicalRow (hs : List String) (raw : List Cell) :
    buildRow hs raw (headerIndexesFrom 0 (hs.map Cell.str)) [] = Except.ok (logicalRow hs raw) := by
  obtain ⟨t, ht, _⟩ := buildRow_header hs raw
  simp [logicalRow, ht]

theorem rowGet_logicalRow (hs : List String) (raw : List Cell) (h : String) :
    rowGet (logicalRow hs raw) h = cellUnder (hs.map Cell.str) raw h := by
  obtain ⟨t, ht, hspec⟩ := buildRow_header hs raw
  simp [logicalRow, ht, hspec]

theorem rowsLoop_spec (hs : List String) (data : Grid) :
    rowsLoop hs (headerIndexesFrom 0 (hs.map Cell.str)) data =
      Except.ok ((data.filter (keepRow (hs.map Cell.str))).map (logicalRow hs)) := by
  induction data with
  | nil => rfl
  | cons raw rest ih =>
    simp only [rowsLoop, buildRow_logicalRow, ih, List.filter_cons, keepRow,
      rowGet_logicalRow]
    by_cases e : cellUnder (hs.map Cell.str) raw "id" = Cell.str ""
    · simp [e]
    · simp [e]

/-- Evaluation of `rows` on a freshly fetched sheet with a text header. -/
theorem rows_ofGrid (key name idx : String) (hs : List String) (data : Grid) :
    (sheet.ofGrid key name idx (hs.map Cell.str :: data)).rows =
      Except.ok ((data.filter (keepRow (hs.map Cell.str))).map (logicalRow hs),
        { sheet.ofGrid key name idx (hs.map Cell.str :: data) with
          headersArr := some hs
          rowsMap := some ((data.filter (keepRow (hs.map Cell.str))).map (logicalRow hs)) }) := by
  simp [sheet.rows, sheet.ofGrid, sheet.headers, sheet.headerIndexes, assertStrings_map_str,
    rowsLoop_spec]

theorem headerIndexesFrom_ge : ∀ (l : List Cell) (i k : Nat),
    k ∈ headerIndexesFrom i l → i ≤ k := by
  intro l
  induction l with
  | nil => intro i k hk; simp [headerIndexesFrom] at hk
  | cons v vs ih =>
    intro i k hk
    simp only [headerIndexesFrom] at hk
    split at hk
    · rcases List.mem_cons.1 hk with e | hk1
      · omega
      · have := ih (i + 1) k hk1; omega
    · have := ih (i + 1) k hk; omega

theorem headerIndexesFrom_length : ∀ (l : List Cell) (i : Nat),
    (headerIndexesFrom i l).length = (l.filter (fun v => decide (v ≠ Cell.str ""))).length := by
  intro l
  induction l with
  | nil => intro i; rfl
  | cons v vs ih =>
    intro i
    simp only [headerIndexesFrom, List.filter_cons]
    by_cases e : v = Cell.str ""
    · simp [e, ih]
    · simp [e, ih]

theorem headerIndexesFrom_names : ∀ (hs : List String) (i : Nat),
    (headerIndexesFrom i (hs.map Cell.str)).map (fun k => hs[k - i]?) =
      (hs.filter (fun h => decide (h ≠ ""))).map some := by
  intro hs
  induction hs with
  | nil => intro i; rfl
  | cons h hs ih =>
    intro i
    have htail : (headerIndexesFrom (i + 1) (hs.map Cell.str)).map (fun k => (h :: hs)[k - i]?) =
        (hs.filter (fun h => decide (h ≠ ""))).map some := by
      rw [← ih (i + 1)]
      apply List.map_congr_left
      intro k hk
      have hge := headerIndexesFrom_ge _ _ _ hk
      have : k - i = (k - (i + 1)) + 1 := by omega
      rw [this, List.getElem?_cons_succ]
    simp only [List.map_cons, headerIndexesFrom, List.filter_cons]
    by_cases e : h = ""
    · subst e
      simpa using htail
    · have e2 : Cell.str h ≠ Cell.str "" := fun e3 => e (Cell.str.inj e3)
      simp only [e2, ne_eq, not_false_eq_true, if_true, List.map_cons, Nat.sub_self,
        List.getElem?_cons_zero, e, decide_True]
      rw [htail]

/-- C6 (amended): for every grid whose header row consists of text cells,
`headers()` returns the text of every header cell in left-to-right order,
blank names included, so its length is the length of the header row; the
non-empty header names are the ones at the positions `headerIndexes()` lists,
in the same order, and the number of those positions is the number of
non-empty header cells. -/
theorem headers_lists_every_header_cell (key name idx : String) (hs : List String)
    (data : Grid) :
    (∃ s1, (sheet.ofGrid key name idx (hs.map Cell.str :: data)).headers = Except.ok (hs, s1)) ∧
    hs.length = (hs.map Cell.str).length ∧
    (∃ indexes,
      (sheet.ofGrid key name idx (hs.map Cell.str :: data)).headerIndexes = Except.ok indexes ∧
      indexes.length =
        ((hs.map Cell.str).filter (fun v => decide (v ≠ Cell.str ""))).length ∧
      indexes.map (fun k => hs[k]?) = (hs.filter (fun h => decide (h ≠ ""))).map some) := by
  refine ⟨?_, by simp, ?_⟩
  · simp [sheet.headers, sheet.ofGrid, assertStrings_map_str]
  · refine ⟨headerIndexesFrom 0 (hs.map Cell.str), rfl, headerIndexesFrom_length _ _, ?_⟩
    simpa using headerIndexesFrom_names hs 0

/-- C6 (as stated) fails: on the header row `id, "", name` the result of
`headers()` has three entries, one of them blank, while the header row has two
non-empty cells. -/
theorem headers_length_counterexample :
    Except.map Prod.fst
        (sheet.ofGrid "K" "users" "table_map"
          [[Cell.str "id", Cell.str "", Cell.str "name"]]).headers =
      Except.ok ["id", "", "name"] ∧
    (["id", "", "name"] : List String).length ≠
      ([Cell.str "id", Cell.str "", Cell.str "name"].filter
        (fun v => decide (v ≠ Cell.str ""))).length := by
  constructor
  · rfl
  · decide

/-- C5 (amended): for every grid whose header row consists of text cells,
`rows()` is, in original order, the data rows kept by `keepRow`, each turned
into the map binding every header name to the row's cell under it.  When a
header cell is named `id`, a data row is kept exactly when its cell under the
last such column is present and is not the empty string; when no header cell
is named `id`, every data row is kept. -/
theorem rows_keeps_rows_with_id (key name idx : String) (hs : List String) (data : Grid) :
    Except.map Prod.fst (sheet.ofGrid key name idx (hs.map Cell.str :: data)).rows =
      Except.ok ((data.filter (keepRow (hs.map Cell.str))).map (logicalRow hs)) ∧
    (∀ raw h, rowGet (logicalRow hs raw) h = cellUnder (hs.map Cell.str) raw h) ∧
    (∀ raw, keepRow (hs.map Cell.str) raw = true ↔
      match lastIndexOf (hs.map Cell.str) "id" with
      | none => True
      | some k => ∃ c, raw[k]? = some c ∧ c ≠ Cell.str "") := by
  refine ⟨?_, rowGet_logicalRow hs, ?_⟩
  · rw [rows_ofGrid]; rfl
  · intro raw
    unfold keepRow cellUnder
    cases lastIndexOf (hs.map Cell.str) "id" with
    | none => simp
    | some k =>
      cases hr : raw[k]? with
      | none => simp [hr]
      | some c => simp [hr]

/-- C5 (as stated) fails: with the header row `name` (no `id` column) the data
row `a` is in `rows()` although it has no `id` cell. -/
theorem rows_without_id_counterexample :
    Except.map Prod.fst
        (sheet.ofGrid "K" "users" "table_map" [[Cell.str "name"], [Cell.str "a"]]).rows =
      Except.ok [[("name", Cell.str "a")]] ∧
    lastIndexOf [Cell.str "name"] "id" = none := by
  constructor
  · rfl
  · decide

theorem cellUnder_missing (hs : List String) (raw : List Cell) (h : String)
    (hm : h ∉ hs) : cellUnder (hs.map Cell.str) raw h = Cell.null := by
  unfold cellUnder
  by_cases hh : h = ""
  · simp [hh]
  · rw [if_neg hh, lastIndexOf_map_str]
    have : (List.range hs.length).filter (fun k => decide (hs[k]? = some h)) = [] := by
      apply List.filter_eq_nil_iff.2
      intro k _ hk
      have hk2 : hs[k]? = some h := by simpa using hk
      exact hm (List.getElem?_mem hk2)
    rw [this]
    rfl

/-- C9 (amended): on a freshly fetched sheet whose header row consists of text
cells, `headersToValueRange(hs...)` returns a `ROWS` value range with one
sequence per logical row, in `rows()` order, each of length `len(hs)`; its
`j`-th cell is the empty string when `hs[j]` is blank, the row's value under
`hs[j]` when `hs[j]` is a non-blank header of the sheet, and the nil value
(not the empty string) when `hs[j]` is non-blank and no header of the sheet
has that name. -/
theorem headersToValueRange_projects_rows (key name idx : String) (hs : List String)
    (data : Grid) (supplied : List String) :
    ∃ rs vr,
      Except.map Prod.fst (sheet.ofGrid key name idx (hs.map Cell.str :: data)).rows =
        Except.ok rs ∧
      Except.map Prod.fst
          ((sheet.ofGrid key name idx (hs.map Cell.str :: data)).headersToValueRange supplied) =
        Except.ok vr ∧
      vr.majorDimension = "ROWS" ∧
      vr.values.length = rs.length ∧
      ∀ (i : Nat) (row : Row), rs[i]? = some row →
        ∃ cells : List Cell, vr.values[i]? = some cells ∧ cells.length = supplied.length ∧
          ∀ (j : Nat) (h : String), supplied[j]? = some h →
            cells[j]? = some
              (if h = "" then Cell.str ""
               else if h ∈ hs then rowGet row h
               else Cell.null) := by
  refine ⟨(data.filter (keepRow (hs.map Cell.str))).map (logicalRow hs),
    { majorDimension := "ROWS"
      values := ((data.filter (keepRow (hs.map Cell.str))).map (logicalRow hs)).map
        (projectRow supplied) },
    by rw [rows_ofGrid]; rfl, ?_, rfl, ?_, ?_⟩
  · simp only [sheet.headersToValueRange, rows_ofGrid]; rfl
  · simp
  · intro i row hrow
    refine ⟨projectRow supplied row, ?_, ?_, ?_⟩
    · show (List.map (projectRow supplied) _)[i]? = _
      rw [List.getElem?_map, hrow]; rfl
    · simp [projectRow]
    · intro j h hj
      simp only [projectRow, List.getElem?_map, hj, Option.map_some']
      by_cases hh : h = ""
      · simp [hh]
      · by_cases hm : h ∈ hs
        · simp [hh, hm]
        · obtain ⟨raw, _, hraw⟩ := List.mem_map.1 (List.getElem?_mem hrow)
          have hnull : rowGet row h = Cell.null := by
            rw [← hraw, rowGet_logicalRow]
            exact cellUnder_missing hs raw h hm
          simp [hh, hm, hnull]

/-- C9 (as stated) fails: asked for the header `name`, which the sheet with
header row `id` does not have, `headersToValueRange` yields the nil value for
the row `1`, not the empty string. -/
theorem headersToValueRange_missing_counterexample :
    Except.map Prod.fst
        ((sheet.ofGrid "K" "users" "table_map" [[Cell.str "id"], [Cell.str "1"]]).headersToValueRange
          ["name"]) =
      Except.ok { majorDimension := "ROWS", values := [[Cell.null]] } ∧
    Cell.null ≠ Cell.str "" := by
  constructor
  · rfl
  · decide

/-! ## Lemmas on the duplicate count -/

theorem countGet_countSet (cm : List (Cell × Nat)) (k : Cell) (n : Nat) (v : Cell) :
    countGet (countSet cm k n) v = if v = k then some n else countGet cm v := by
  induction cm with
  | nil =>
    by_cases e : v = k
    · simp [countSet, countGet, List.lookup, e]
    · have : (v == k) = false := by simpa using e
      simp [countSet, countGet, List.lookup, e, this]
  | cons p rest ih =>
    obtain ⟨k1, n1⟩ := p
    unfold countGet at ih ⊢
    by_cases e1 : k1 = k
    · subst e1
      by_cases e : v = k1
      · simp [countSet, List.lookup, e]
      · have : (v == k1) = false := by simpa using e
        simp [countSet, List.lookup, e, this]
    · by_cases e : v = k1
      · subst e
        have : ¬ v = k := e1
        simp [countSet, List.lookup, e1, this]
      · have : (v == k1) = false := by simpa using e
        simp [countSet, List.lookup, e1, this, ih]

theorem keys_countSet (cm : List (Cell × Nat)) (k : Cell) (n : Nat) :
    (countSet cm k n).map Prod.fst =
      if k ∈ cm.map Prod.fst then cm.map Prod.fst else cm.map Prod.fst ++ [k] := by
  induction cm with
  | nil => simp [countSet]
  | cons p rest ih =>
    obtain ⟨k1, n1⟩ := p
    by_cases e1 : k1 = k
    · subst e1; simp [countSet]
    · have e2 : ¬ k = k1 := fun e => e1 e.symm
      simp only [countSet, e1, if_false, List.map_cons, ih, List.mem_cons, e2, false_or]
      split <;> simp

theorem nodup_keys_countSet (cm : List (Cell × Nat)) (k : Cell) (n : Nat)
    (h : (cm.map Prod.fst).Nodup) : ((countSet cm k n).map Prod.fst).Nodup := by
  rw [keys_countSet]
  split
  · exact h
  · rename_i hk
    exact List.Nodup.append h (List.nodup_singleton k)
      (by intro a ha hb; rw [List.mem_singleton.1 hb] at ha; exact hk ha)

theorem mem_iff_countGet (cm : List (Cell × Nat)) (h : (cm.map Prod.fst).Nodup) (v : Cell)
    (m : Nat) : (v, m) ∈ cm ↔ countGet cm v = some m := by
  induction cm with
  | nil => simp [countGet, List.lookup]
  | cons p rest ih =>
    obtain ⟨k1, n1⟩ := p
    rw [List.map_cons, List.nodup_cons] at h
    unfold countGet at ih ⊢
    by_cases e : v = k1
    · subst e
      have hnot : (v, m) ∉ rest := fun hmem => h.1 (List.mem_map.2 ⟨(v, m), hmem, rfl⟩)
      simp [List.lookup, hnot]
      exact eq_comm
    · have : (v == k1) = false := by simpa using e
      simp [List.lookup, this, e, ih h.2]

theorem countInv_nil : CountInv [] [] :=
  ⟨by simp, fun v => by simp [countGet, List.lookup]⟩

theorem countInv_incr (cm : List (Cell × Nat)) (L : List Cell) (k : Cell)
    (h : CountInv cm L) : CountInv (countIncr cm k) (L ++ [k]) := by
  obtain ⟨hnd, hget⟩ := h
  unfold countIncr
  have hk := hget k
  by_cases e0 : L.count k = 0
  · rw [if_pos e0] at hk
    rw [hk]
    refine ⟨nodup_keys_countSet _ _ _ hnd, ?_⟩
    intro v
    rw [countGet_countSet, List.count_append, hget v]
    by_cases e : v = k
    · subst e; simp [e0]
    · have : ¬ k = v := fun e2 => e e2.symm
      simp [e, List.count_singleton, this]
  · rw [if_neg e0] at hk
    rw [hk]
    refine ⟨nodup_keys_countSet _ _ _ hnd, ?_⟩
    intro v
    rw [countGet_countSet, List.count_append, hget v]
    by_cases e : v = k
    · subst e; simp
    · have : ¬ k = v := fun e2 => e e2.symm
      simp [e, List.count_singleton, this]

theorem countInv_rows (column : String) : ∀ (rows : List Row) (cm : List (Cell × Nat))
    (L : List Cell), CountInv cm L →
      CountInv (countRows column rows cm) (L ++ rows.map (fun r => rowGet r column)) := by
  intro rows
  induction rows with
  | nil => intro cm L h; simpa [countRows] using h
  | cons r rest ih =>
    intro cm L h
    have := ih _ _ (countInv_incr cm L (rowGet r column) h)
    simpa [countRows, List.append_assoc] using this

/-- The keys reported by `dupCheckByColumn` from a count map of `L`: each
value occurring more than once in `L`, once. -/
theorem dup_keys_spec (cm : List (Cell × Nat)) (L : List Cell) (h : CountInv cm L) :
    ((cm.filter (fun kv => decide (1 < kv.2))).map Prod.fst).Nodup ∧
      ∀ v, v ∈ (cm.filter (fun kv => decide (1 < kv.2))).map Prod.fst ↔ 1 < L.count v := by
  obtain ⟨hnd, hget⟩ := h
  constructor
  · exact List.Nodup.sublist (List.Sublist.map _ (List.filter_sublist _)) hnd
  · intro v
    constructor
    · intro hv
      obtain ⟨⟨k, m⟩, hmem, hk⟩ := List.mem_map.1 hv
      simp only at hk
      subst hk
      obtain ⟨hm1, hm2⟩ := List.mem_filter.1 hmem
      have hg := (mem_iff_countGet cm hnd k m).1 hm1
      rw [hget k] at hg
      have hm3 : 1 < m := by simpa using hm2
      split at hg
      · cases hg
      · have := Option.some.inj hg; omega
    · intro hv
      have hg := hget v
      rw [if_neg (by omega)] at hg
      have hmem := (mem_iff_countGet cm hnd v _).2 hg
      exact List.mem_map.2 ⟨(v, L.count v), List.mem_filter.2 ⟨hmem, by simpa using hv⟩, rfl⟩

/-- C4 (amended): whenever both sheets have logical rows, `dupCheckByColumn`
returns exactly the values that occur more than once among the column's values
of the two sheets' logical rows taken together, each exactly once: every value
the two sheets share, and also every value repeated inside one sheet.  When
neither sheet repeats a value, the result is exactly the overlap of the two
value sets, hence empty when they are disjoint. -/
theorem dupCheckByColumn_reports_repeated_values (s diff : sheet) (column : String)
    (rs rd : List Row) (s1 diff1 : sheet)
    (hs : s.rows = Except.ok (rs, s1)) (hd : diff.rows = Except.ok (rd, diff1)) :
    ∃ res, s.dupCheckByColumn diff column = Except.ok (res, s1, diff1) ∧
      res.Nodup ∧
      (∀ v, v ∈ res ↔
        1 < (rs.map (fun r => rowGet r column) ++ rd.map (fun r => rowGet r column)).count v) ∧
      ((rs.map (fun r => rowGet r column)).Nodup → (rd.map (fun r => rowGet r column)).Nodup →
        ∀ v, v ∈ res ↔
          v ∈ rs.map (fun r => rowGet r column) ∧ v ∈ rd.map (fun r => rowGet r column)) := by
  have hinv : CountInv (countRows column rd (countRows column rs []))
      (rs.map (fun r => rowGet r column) ++ rd.map (fun r => rowGet r column)) := by
    have h1 := countInv_rows column rs [] [] countInv_nil
    have h2 := countInv_rows column rd _ _ h1
    simpa using h2
  obtain ⟨hnd, hmem⟩ := dup_keys_spec _ _ hinv
  refine ⟨_, by simp only [sheet.dupCheckByColumn, hs, hd], hnd, hmem, ?_⟩
  intro hn1 hn2 v
  rw [hmem v, List.count_append]
  have c1 := List.nodup_iff_count_le_one.1 hn1 v
  have c2 := List.nodup_iff_count_le_one.1 hn2 v
  have m1 : v ∈ rs.map (fun r => rowGet r column) ↔
      0 < (rs.map (fun r => rowGet r column)).count v := List.count_pos_iff.symm
  have m2 : v ∈ rd.map (fun r => rowGet r column) ↔
      0 < (rd.map (fun r => rowGet r column)).count v := List.count_pos_iff.symm
  rw [m1, m2]
  omega

/-- Witness for C4: base ids `1, 2`, diff ids `2, 3`. -/
theorem dupCheckByColumn_reports_repeated_values_witness :
    ∃ res,
      (sheet.ofGrid "K1" "users" "table_map"
          [[Cell.str "id"], [Cell.str "1"], [Cell.str "2"]]).dupCheckByColumn
        (sheet.ofGrid "K2" "users" "table_map" [[Cell.str "id"], [Cell.str "2"], [Cell.str "3"]])
        "id" =
        Except.ok (res,
          { sheetKey := "K1", sheetName := "users", indexSheetName := "table_map",
            headersArr := some ["id"],
            values := [[Cell.str "id"], [Cell.str "1"], [Cell.str "2"]],
            rowsMap := some [[("id", Cell.str "1")], [("id", Cell.str "2")]] },
          { sheetKey := "K2", sheetName := "users", indexSheetName := "table_map",
            headersArr := some ["id"],
            values := [[Cell.str "id"], [Cell.str "2"], [Cell.str "3"]],
            rowsMap := some [[("id", Cell.str "2")], [("id", Cell.str "3")]] }) ∧
      res.Nodup ∧
      (∀ v, v ∈ res ↔
        1 < (([[("id", Cell.str "1")], [("id", Cell.str "2")]] : List Row).map
              (fun r => rowGet r "id") ++
            ([[("id", Cell.str "2")], [("id", Cell.str "3")]] : List Row).map
              (fun r => rowGet r "id")).count v) ∧
      ((([[("id", Cell.str "1")], [("id", Cell.str "2")]] : List Row).map
            (fun r => rowGet r "id")).Nodup →
        (([[("id", Cell.str "2")], [("id", Cell.str "3")]] : List Row).map
            (fun r => rowGet r "id")).Nodup →
        ∀ v, v ∈ res ↔
          v ∈ ([[("id", Cell.str "1")], [("id", Cell.str "2")]] : List Row).map
              (fun r => rowGet r "id") ∧
            v ∈ ([[("id", Cell.str "2")], [("id", Cell.str "3")]] : List Row).map
              (fun r => rowGet r "id")) :=
  dupCheckByColumn_reports_repeated_values _ _ "id" _ _ _ _ rfl rfl

/-- C4 (as stated) fails: the base ids `1, 1` and the diff id `2` are disjoint
sets of values, yet `dupCheckByColumn` returns `1`. -/
theorem dupCheckByColumn_disjoint_counterexample :
    Except.map Prod.fst
        ((sheet.ofGrid "K1" "users" "table_map"
            [[Cell.str "id"], [Cell.str "1"], [Cell.str "1"]]).dupCheckByColumn
          (sheet.ofGrid "K2" "users" "table_map" [[Cell.str "id"], [Cell.str "2"]]) "id") =
      Except.ok [Cell.str "1"] ∧
    Except.map (fun r => r.1.map (fun t => rowGet t "id"))
        (sheet.ofGrid "K1" "users" "table_map"
          [[Cell.str "id"], [Cell.str "1"], [Cell.str "1"]]).rows =
      Except.ok [Cell.str "1", Cell.str "1"] ∧
    Except.map (fun r => r.1.map (fun t => rowGet t "id"))
        (sheet.ofGrid "K2" "users" "table_map" [[Cell.str "id"], [Cell.str "2"]]).rows =
      Except.ok [Cell.str "2"] ∧
    List.Disjoint [Cell.str "1", Cell.str "1"] [Cell.str "2"] := by
  refine ⟨rfl, rfl, rfl, ?_⟩
  intro a ha hb
  rw [List.mem_singleton.1 hb] at ha
  simp at ha

/-! ## Lemmas on `replaceByColumn` -/

/-- The update loop only reads the cell at `index` of every raw row. -/
theorem replaceLoop_eq_replaceCells (index : Nat) (m : List (String × String)) (g : Grid) :
    replaceLoop (index : Int) m g = replaceCells m (g.map (fun row => row[index]?)) := by
  induction g with
  | nil => rfl
  | cons row rest ih =>
    have hneg : ¬ ((index : Int) < 0) := by omega
    simp only [replaceLoop, hneg, if_false, Int.toNat_ofNat, List.map_cons, replaceCells, ih]
    cases row[index]? with
    | none => rfl
    | some k => rfl

/-- Feeding the cells of a computed update back into the loop reproduces the
update, for a map that leaves its own replacement values fixed. -/
theorem replaceCells_again (m : List (String × String))
    (hfix : ∀ k v, List.lookup k m = some v → List.lookup v m = none ∨ List.lookup v m = some v) :
    ∀ (cs : List (Option Cell)) (u : Grid), replaceCells m cs = Except.ok u →
      replaceCells m (u.map (fun row => row[0]?)) = Except.ok u := by
  intro cs
  induction cs with
  | nil =>
    intro u h
    simp only [replaceCells, Except.ok.injEq] at h
    subst h; rfl
  | cons c rest ih =>
    intro u h
    cases c with
    | none => simp [replaceCells] at h
    | some k =>
      cases k with
      | null => simp [replaceCells, Cell.assertString] at h
      | num n => simp [replaceCells, Cell.assertString] at h
      | bool b => simp [replaceCells, Cell.assertString] at h
      | str ks =>
        simp only [replaceCells, Cell.assertString] at h
        cases hr : replaceCells m rest with
        | error p => simp [hr] at h
        | ok u1 =>
          have ih1 := ih u1 hr
          rw [hr] at h
          cases hl : List.lookup ks m with
          | none =>
            simp only [hl, Except.ok.injEq] at h
            subst h
            simp [replaceCells, Cell.assertString, hl, ih1]
          | some v =>
            simp only [hl, Except.ok.injEq] at h
            subst h
            rcases hfix ks v hl with hv | hv
            · simp [replaceCells, Cell.assertString, hv, ih1]
            · simp [replaceCells, Cell.assertString, hv, ih1]

/-- The header scan answers `-1` or a position at or after its start. -/
theorem headerIndexLoop_ge (column : String) : ∀ (l : List Cell) (a : Nat) (b : Int),
    headerIndexLoop column l a = Except.ok b → b = -1 ∨ (a : Int) ≤ b := by
  intro l
  induction l with
  | nil => intro a b hb; simp only [headerIndexLoop, Except.ok.injEq] at hb; omega
  | cons x xs ihx =>
    intro a b hb
    cases x with
    | null => simp [headerIndexLoop, Cell.assertString] at hb
    | num n => simp [headerIndexLoop, Cell.assertString] at hb
    | bool b => simp [headerIndexLoop, Cell.assertString] at hb
    | str t2 =>
      simp only [headerIndexLoop, Cell.assertString] at hb
      split at hb
      · simp only [Except.ok.injEq] at hb; omega
      · have := ihx (a + 1) b hb; omega

/-- A header scan that finds `column` at offset `j` finds it again in any
header row with the same cells left of `j` and `column` at `j`. -/
theorem headerIndexLoop_transfer (column : String) :
    ∀ (hd hd2 : List Cell) (i j : Nat),
      headerIndexLoop column hd i = Except.ok ((i + j : Nat) : Int) →
      hd2.take j = hd.take j → hd2[j]? = some (Cell.str column) →
      headerIndexLoop column hd2 i = Except.ok ((i + j : Nat) : Int) := by
  intro hd
  induction hd with
  | nil =>
    intro hd2 i j h _ _
    simp only [headerIndexLoop, Except.ok.injEq] at h
    omega
  | cons v vs ih =>
    intro hd2 i j h htake hat
    cases v with
    | null => simp [headerIndexLoop, Cell.assertString] at h
    | num n => simp [headerIndexLoop, Cell.assertString] at h
    | bool b => simp [headerIndexLoop, Cell.assertString] at h
    | str t =>
      simp only [headerIndexLoop, Cell.assertString] at h
      by_cases e : t = column
      · rw [if_pos e] at h
        have hj : j = 0 := by
          simp only [Except.ok.injEq] at h
          omega
        subst hj
        cases hd2 with
        | nil => simp at hat
        | cons w ws =>
          simp only [List.getElem?_cons_zero, Option.some.injEq] at hat
          subst hat
          simp [headerIndexLoop, Cell.assertString]
      · rw [if_neg e] at h
        cases j with
        | zero =>
          exfalso
          have := headerIndexLoop_ge column vs (i + 1) _ h
          omega
        | succ j =>
          cases hd2 with
          | nil => simp at hat
          | cons w ws =>
            simp only [List.take_succ_cons, List.cons.injEq] at htake
            simp only [List.getElem?_cons_succ] at hat
            obtain ⟨hw, htl⟩ := htake
            subst hw
            have h2 : headerIndexLoop column vs (i + 1) = Except.ok (((i + 1) + j : Nat) : Int) := by
              rw [h]; congr 1; push_cast; omega
            have := ih ws (i + 1) j h2 htl hat
            simp only [headerIndexLoop, Cell.assertString, if_neg e, this]
            congr 1; push_cast; omega

/-- A header scan that answers offset `j` has found `column` there. -/
theorem headerIndexLoop_found (column : String) :
    ∀ (hd : List Cell) (i j : Nat),
      headerIndexLoop column hd i = Except.ok ((i + j : Nat) : Int) →
      hd[j]? = some (Cell.str column) := by
  intro hd
  induction hd with
  | nil =>
    intro i j h
    simp only [headerIndexLoop, Except.ok.injEq] at h
    omega
  | cons v vs ih =>
    intro i j h
    cases v with
    | null => simp [headerIndexLoop, Cell.assertString] at h
    | num n => simp [headerIndexLoop, Cell.assertString] at h
    | bool b => simp [headerIndexLoop, Cell.assertString] at h
    | str t =>
      simp only [headerIndexLoop, Cell.assertString] at h
      by_cases e : t = column
      · rw [if_pos e] at h
        have hj : j = 0 := by
          simp only [Except.ok.injEq] at h
          omega
        subst hj
        subst e
        simp
      · rw [if_neg e] at h
        cases j with
        | zero =>
          have := headerIndexLoop_ge column vs (i + 1) _ h
          omega
        | succ j =>
          have h2 : headerIndexLoop column vs (i + 1) =
              Except.ok (((i + 1) + j : Nat) : Int) := by
            rw [h]; congr 1; push_cast; omega
          simpa using ih (i + 1) j h2

theorem mem_of_lookup_eq_some (m : List (String × String)) (k v : String)
    (h : List.lookup k m = some v) : (k, v) ∈ m := by
  induction m with
  | nil => simp [List.lookup] at h
  | cons p rest ih =>
    obtain ⟨k1, v1⟩ := p
    by_cases e : k = k1
    · subst e
      simp [List.lookup] at h
      simp [h]
    · have : (k == k1) = false := by simpa using e
      simp only [List.lookup, this] at h
      exact List.mem_cons_of_mem _ (ih h)

/-- C7 (amended): `replaceByColumn` is idempotent for a replacement map that
leaves its own replacement values and the column name fixed.  For every grid
whose header contains the column and on which the rewrite succeeds, and every
such map, the rewrite applied to a grid that holds the first update in that
column (and the same header cells left of it) computes the same column values
as the first rewrite. -/
theorem replaceByColumn_idempotent (s s2 : sheet) (column : String)
    (m : List (String × String)) (index : Nat) (req1 : UpdateRequest)
    (hfix : ∀ kv ∈ m, List.lookup kv.2 m = none ∨ List.lookup kv.2 m = some kv.2)
    (hcol : List.lookup column m = none ∨ List.lookup column m = some column)
    (hidx : s.headerIndexByColumn column = Except.ok (index : Int))
    (h1 : s.replaceRequest column m = Except.ok req1)
    (hhead : s2.values.head?.map (List.take index) = s.values.head?.map (List.take index))
    (hcolumn : s2.values.map (fun row => row[index]?) =
      req1.body.values.map (fun row => row[0]?)) :
    ∃ req2, s2.replaceRequest column m = Except.ok req2 ∧
      req2.body.values = req1.body.values := by
  -- the first rewrite
  simp only [sheet.replaceRequest, hidx] at h1
  cases hu : replaceLoop (index : Int) m s.values with
  | error p => simp [hu] at h1
  | ok u =>
    simp only [hu, Except.ok.injEq] at h1
    subst h1
    simp only at hcolumn ⊢
    rw [replaceLoop_eq_replaceCells] at hu
    have hagain := replaceCells_again m
      (fun k v hl => hfix (k, v) (mem_of_lookup_eq_some m k v hl)) _ u hu
    -- the header row of the first grid
    cases hv : s.values with
    | nil => simp [sheet.headerIndexByColumn, hv] at hidx
    | cons hd rest =>
      simp only [sheet.headerIndexByColumn, hv] at hidx
      have hidx0 : headerIndexLoop column hd 0 = Except.ok ((0 + index : Nat) : Int) := by
        simpa using hidx
      have hfound := headerIndexLoop_found column hd 0 index hidx0
      -- the first row of the update is the column name
      rw [hv] at hu
      simp only [List.map_cons, hfound, replaceCells, Cell.assertString] at hu
      cases hr : replaceCells m (rest.map (fun row => row[index]?)) with
      | error p => simp [hr] at hu
      | ok u1 =>
        have hu0 : u = [Cell.str column] :: u1 := by
          rw [hr] at hu
          rcases hcol with hc | hc
          · simp only [hc, Except.ok.injEq] at hu
            exact hu.symm
          · simp only [hc, Except.ok.injEq] at hu
            exact hu.symm
        -- the second grid
        cases hv2 : s2.values with
        | nil => simp [hv2, hu0] at hcolumn
        | cons hd2 rest2 =>
          rw [hv2, hu0] at hcolumn
          simp only [List.map_cons, List.cons.injEq, List.getElem?_cons_zero] at hcolumn
          rw [hv2, hv] at hhead
          simp only [List.head?_cons, Option.map_some', Option.some.injEq] at hhead
          have hidx2 := headerIndexLoop_transfer column hd hd2 0 index hidx0 hhead hcolumn.1
          refine ⟨{ spreadsheetId := s2.sheetKey
                    range := s2.indexSheetName ++ "!" ++ n2c ((index : Int) + 1) ++ ":" ++
                      n2c ((index : Int) + 1)
                    body := { majorDimension := "ROWS", values := u } }, ?_, rfl⟩
          have hloop2 : replaceLoop (index : Int) m s2.values = Except.ok u := by
            rw [replaceLoop_eq_replaceCells, hv2, List.map_cons, hcolumn.1, hcolumn.2]
            have hshape : List.map (fun row : List Cell => row[0]?) u =
                some (Cell.str column) :: List.map (fun row => row[0]?) u1 := by
              rw [hu0]; rfl
            rw [← hshape]
            exact hagain
          have hidx3 : headerIndexLoop column hd2 0 = Except.ok (index : Int) := by
            simpa using hidx2
          simp only [sheet.replaceRequest, sheet.headerIndexByColumn, hv2, hidx3]
          rw [← hv2, hloop2]

/-- Witness for C7: an index grid with keys `K1`, `K2` and the replacement map
of a backup run. -/
theorem replaceByColumn_idempotent_witness :
    ∃ req2,
      (sheet.ofGrid "B" "table_map" "table_map"
          [[Cell.str "id", Cell.str "key"], [Cell.str "1", Cell.str "B1"],
            [Cell.str "2", Cell.str "B2"]]).replaceRequest "key"
          [("K2", "B2"), ("K1", "B1"), ("IDX", "B")] = Except.ok req2 ∧
      req2.body.values = [[Cell.str "key"], [Cell.str "B1"], [Cell.str "B2"]] :=
  replaceByColumn_idempotent
    (sheet.ofGrid "B" "table_map" "table_map"
      [[Cell.str "id", Cell.str "key"], [Cell.str "1", Cell.str "K1"],
        [Cell.str "2", Cell.str "K2"]])
    (sheet.ofGrid "B" "table_map" "table_map"
      [[Cell.str "id", Cell.str "key"], [Cell.str "1", Cell.str "B1"],
        [Cell.str "2", Cell.str "B2"]])
    "key" [("K2", "B2"), ("K1", "B1"), ("IDX", "B")] 1
    { spreadsheetId := "B"
      range := "table_map" ++ "!" ++ n2c (((1 : Nat) : Int) + 1) ++ ":" ++
        n2c (((1 : Nat) : Int) + 1)
      body :=
        { majorDimension := "ROWS"
          values := [[Cell.str "key"], [Cell.str "B1"], [Cell.str "B2"]] } }
    (by decide) (by decide) rfl rfl rfl rfl

/-- C7 (as stated) fails: with the map `a ↦ b, b ↦ c` the first rewrite of the
column `key, a` gives `key, b`, and the rewrite of a grid holding `key, b`
gives `key, c`. -/
theorem replaceByColumn_chain_counterexample :
    Except.map (fun r => r.body.values)
        ((sheet.ofGrid "B" "table_map" "table_map"
          [[Cell.str "key"], [Cell.str "a"]]).replaceRequest "key" [("a", "b"), ("b", "c")]) =
      Except.ok [[Cell.str "key"], [Cell.str "b"]] ∧
    Except.map (fun r => r.body.values)
        ((sheet.ofGrid "B" "table_map" "table_map"
          [[Cell.str "key"], [Cell.str "b"]]).replaceRequest "key" [("a", "b"), ("b", "c")]) =
      Except.ok [[Cell.str "key"], [Cell.str "c"]] ∧
    ([[Cell.str "key"], [Cell.str "b"]] : Grid) ≠ [[Cell.str "key"], [Cell.str "c"]] := by
  refine ⟨rfl, rfl, ?_⟩
  decide

/-- The update loop on a grid whose raw rows all hold a text cell at `index`:
one single-cell row per raw row, holding the replacement of the cell's text
when the map binds it and the text itself otherwise. -/
theorem replaceLoop_of_text (index : Nat) (m : List (String × String)) : ∀ g : Grid,
    (∀ row ∈ g, ∃ t, row[index]? = some (Cell.str t)) →
      ∃ u, replaceLoop (index : Int) m g = Except.ok u ∧ u.length = g.length ∧
        ∀ (r : Nat) (row : List Cell), g[r]? = some row →
          ∃ t, row[index]? = some (Cell.str t) ∧
            u[r]? = some [Cell.str ((List.lookup t m).getD t)] := by
  intro g
  induction g with
  | nil => intro _; exact ⟨[], rfl, rfl, fun r row h => by simp at h⟩
  | cons row0 rest ih =>
    intro h
    obtain ⟨t0, ht0⟩ := h row0 (List.mem_cons_self _ _)
    obtain ⟨u, hu, hlen, hrows⟩ := ih (fun row hr => h row (List.mem_cons_of_mem _ hr))
    have hneg : ¬ ((index : Int) < 0) := by omega
    refine ⟨[Cell.str ((List.lookup t0 m).getD t0)] :: u, ?_, by simp [hlen], ?_⟩
    · simp only [replaceLoop, hneg, if_false, Int.toNat_ofNat, ht0, Cell.assertString, hu]
      cases List.lookup t0 m <;> rfl
    · intro r row hr
      cases r with
      | zero =>
        simp only [List.getElem?_cons_zero, Option.some.injEq] at hr
        subst hr
        exact ⟨t0, ht0, by simp⟩
      | succ r =>
        simp only [List.getElem?_cons_succ] at hr ⊢
        exact hrows r row hr

/-- Once the request is computed, `replaceByColumn` sends it as one update and
returns the wrapped transport error, if any. -/
theorem replaceByColumn_of_request {σ : Type} (service : Remote σ) (w : World σ) (s : sheet)
    (column : String) (m : List (String × String)) (req : UpdateRequest)
    (h : s.replaceRequest column m = Except.ok req) :
    sheet.replaceByColumn service s column m w =
      ((match (service.valuesUpdate req.spreadsheetId req.range req.body "USER_ENTERED"
            w.state).1 with
        | Except.error cause => Res.err (Error.sheetUpdateFailed cause s.sheetKey)
        | Except.ok _ => Res.ok ()),
        { state := (service.valuesUpdate req.spreadsheetId req.range req.body "USER_ENTERED"
            w.state).2,
          trace := w.trace ++
            [Call.valuesUpdate req.spreadsheetId req.range req.body "USER_ENTERED"] }) := by
  unfold sheet.replaceByColumn
  rw [Eff.bind_of_ok _ _ w w req (by rw [h]; rfl)]
  rw [Eff.bind_of_ok _ _ w
    { state := (service.valuesUpdate req.spreadsheetId req.range req.body "USER_ENTERED"
        w.state).2,
      trace := w.trace ++
        [Call.valuesUpdate req.spreadsheetId req.range req.body "USER_ENTERED"] }
    (service.valuesUpdate req.spreadsheetId req.range req.body "USER_ENTERED" w.state).1 rfl]
  cases (service.valuesUpdate req.spreadsheetId req.range req.body "USER_ENTERED" w.state).1 <;>
    rfl

/-- C8 (amended): for every grid in whose header row the scan finds the column
and whose raw rows (header row included) all hold a text cell under that
column, and every replacement map, `replaceByColumn` computes without a panic
an update that has exactly one single-cell row per raw row, in raw order, the
cell being `replaceMap[v]` when the row's text `v` under the column is a key
of the map and `v` otherwise, and sends it as one update of the range
`indexSheetName!X:X` with `X = n2c(index+1)`. -/
theorem replaceByColumn_rewrites_column {σ : Type} (service : Remote σ) (w : World σ)
    (s : sheet) (column : String) (m : List (String × String)) (index : Nat)
    (hidx : s.headerIndexByColumn column = Except.ok (index : Int))
    (htext : ∀ row ∈ s.values, ∃ t, row[index]? = some (Cell.str t)) :
    ∃ req, s.replaceRequest column m = Except.ok req ∧
      req.spreadsheetId = s.sheetKey ∧
      req.range = s.indexSheetName ++ "!" ++ n2c ((index : Int) + 1) ++ ":" ++
        n2c ((index : Int) + 1) ∧
      req.body.majorDimension = "ROWS" ∧
      req.body.values.length = s.values.length ∧
      (∀ (r : Nat) (row : List Cell), s.values[r]? = some row →
        ∃ t, row[index]? = some (Cell.str t) ∧
          req.body.values[r]? = some [Cell.str ((List.lookup t m).getD t)]) ∧
      (sheet.replaceByColumn service s column m w).2.trace =
        w.trace ++ [Call.valuesUpdate req.spreadsheetId req.range req.body "USER_ENTERED"] ∧
      ∀ p, (sheet.replaceByColumn service s column m w).1 ≠ Res.panic p := by
  obtain ⟨u, hu, hlen, hrows⟩ := replaceLoop_of_text index m s.values htext
  have hreq : s.replaceRequest column m =
      Except.ok
        { spreadsheetId := s.sheetKey
          range := s.indexSheetName ++ "!" ++ n2c ((index : Int) + 1) ++ ":" ++
            n2c ((index : Int) + 1)
          body := { majorDimension := "ROWS", values := u } } := by
    simp only [sheet.replaceRequest, hidx, hu]
  have hrun := replaceByColumn_of_request service w s column m _ hreq
  refine ⟨_, hreq, rfl, rfl, rfl, hlen, hrows, ?_, ?_⟩
  · rw [hrun]
  · intro p
    rw [hrun]
    simp only
    split <;> intro h <;> cases h

/-- Witness for C8: an index grid with the keys `K1`, `K2`. -/
theorem replaceByColumn_rewrites_column_witness :
    ∃ req,
      (sheet.ofGrid "B" "table_map" "table_map"
          [[Cell.str "id", Cell.str "key"], [Cell.str "1", Cell.str "K1"],
            [Cell.str "2", Cell.str "K2"]]).replaceRequest "key" [("K1", "B1")] =
        Except.ok req ∧
      req.spreadsheetId = "B" ∧
      req.range = "table_map" ++ "!" ++ n2c (((1 : Nat) : Int) + 1) ++ ":" ++
        n2c (((1 : Nat) : Int) + 1) ∧
      req.body.majorDimension = "ROWS" ∧
      req.body.values.length = 3 ∧
      (∀ (r : Nat) (row : List Cell),
        ([[Cell.str "id", Cell.str "key"], [Cell.str "1", Cell.str "K1"],
            [Cell.str "2", Cell.str "K2"]] : Grid)[r]? = some row →
        ∃ t, row[1]? = some (Cell.str t) ∧
          req.body.values[r]? = some [Cell.str ((List.lookup t [("K1", "B1")]).getD t)]) ∧
      (sheet.replaceByColumn exampleRemote
          (sheet.ofGrid "B" "table_map" "table_map"
            [[Cell.str "id", Cell.str "key"], [Cell.str "1", Cell.str "K1"],
              [Cell.str "2", Cell.str "K2"]]) "key" [("K1", "B1")] (World.init ())).2.trace =
        [] ++ [Call.valuesUpdate req.spreadsheetId req.range req.body "USER_ENTERED"] ∧
      ∀ p, (sheet.replaceByColumn exampleRemote
          (sheet.ofGrid "B" "table_map" "table_map"
            [[Cell.str "id", Cell.str "key"], [Cell.str "1", Cell.str "K1"],
              [Cell.str "2", Cell.str "K2"]]) "key" [("K1", "B1")] (World.init ())).1 ≠
        Res.panic p :=
  replaceByColumn_rewrites_column exampleRemote (World.init ())
    (sheet.ofGrid "B" "table_map" "table_map"
      [[Cell.str "id", Cell.str "key"], [Cell.str "1", Cell.str "K1"],
        [Cell.str "2", Cell.str "K2"]]) "key" [("K1", "B1")] 1 rfl
    (by
      intro row hrow
      simp only [sheet.ofGrid, List.mem_cons, List.mem_singleton, List.not_mem_nil,
        or_false] at hrow
      rcases hrow with h | h | h
      · exact ⟨"key", by rw [h]; rfl⟩
      · exact ⟨"K1", by rw [h]; rfl⟩
      · exact ⟨"K2", by rw [h]; rfl⟩)

/-- C8 (as stated) fails: the header row contains the column `key`, yet the
rewrite panics and sends nothing when a raw row holds a number under `key`
(failed type assertion) and when a raw row stops before that column (index out
of range). -/
theorem replaceByColumn_panics_counterexample :
    sheet.replaceByColumn exampleRemote
        (sheet.ofGrid "B" "table_map" "table_map"
          [[Cell.str "id", Cell.str "key"], [Cell.str "1", Cell.num 5]])
        "key" [("K1", "B1")] (World.init ()) =
      (Res.panic Panic.typeAssertion, World.init ()) ∧
    sheet.replaceByColumn exampleRemote
        (sheet.ofGrid "B" "table_map" "table_map"
          [[Cell.str "id", Cell.str "key"], [Cell.str "1"]])
        "key" [("K1", "B1")] (World.init ()) =
      (Res.panic Panic.indexOutOfRange, World.init ()) := by
  exact ⟨rfl, rfl⟩

/-- On a raw row that stops before the column, `replaceByColumn` panics for
every remote and sends no update, although `rows()` reads such a row as
holding `""` there. -/
theorem replaceByColumn_short_row_panics {σ : Type} (service : Remote σ) (w : World σ) :
    sheet.replaceByColumn service
        (sheet.ofGrid "B" "table_map" "table_map"
          [[Cell.str "id", Cell.str "key"], [Cell.str "1"]])
        "key" [("K1", "B1")] w =
      (Res.panic Panic.indexOutOfRange, w) := by
  rfl

/-! ## Lemmas on the merge -/

/-- The filtering loop succeeds exactly on rows whose `sheetname` is text, and
then returns the rows named `sheetName`. -/
theorem targetIndexRows_eq_ok (sheetName : String) : ∀ (rows t : List Row),
    targetIndexRows sheetName rows = Except.ok t →
      t = rows.filter (fun r => decide (rowGet r "sheetname" = Cell.str sheetName)) := by
  intro rows
  induction rows with
  | nil => intro t h; simp only [targetIndexRows, Except.ok.injEq] at h; simp [← h]
  | cons r rest ih =>
    intro t h
    simp only [targetIndexRows] at h
    cases hc : rowGet r "sheetname" with
    | null => simp [hc, Cell.assertString] at h
    | num n => simp [hc, Cell.assertString] at h
    | bool b => simp [hc, Cell.assertString] at h
    | str n =>
      simp only [hc, Cell.assertString] at h
      cases hr : targetIndexRows sheetName rest with
      | error p => simp [hr] at h
      | ok t1 =>
        simp only [hr, Except.ok.injEq] at h
        have := ih t1 hr
        subst this
        rw [← h, List.filter_cons]
        by_cases e : n = sheetName
        · simp [e, hc]
        · have : ¬ Cell.str n = Cell.str sheetName := fun e2 => e (Cell.str.inj e2)
          simp [e, this, hc]

theorem targetIndexRows_of_text (sheetName : String) : ∀ rows : List Row,
    (∀ r ∈ rows, ∃ t, rowGet r "sheetname" = Cell.str t) →
      targetIndexRows sheetName rows =
        Except.ok (rows.filter (fun r => decide (rowGet r "sheetname" = Cell.str sheetName))) := by
  intro rows
  induction rows with
  | nil => intro _; rfl
  | cons r rest ih =>
    intro h
    obtain ⟨n, hn⟩ := h r (List.mem_cons_self _ _)
    have hrest := ih (fun x hx => h x (List.mem_cons_of_mem _ hx))
    simp only [targetIndexRows, hn, Cell.assertString, hrest, List.filter_cons]
    by_cases e : n = sheetName
    · simp [e]
    · have : ¬ Cell.str n = Cell.str sheetName := fun e2 => e (Cell.str.inj e2)
      simp [e, this]

/-- When `findIndexRows` lets the merge go on, each index sheet has exactly
one logical row named `sheetName`. -/
theorem findIndexRows_eq_ok (b d : sheet) (sheetName : String) (b1 d1 : sheet)
    (tb td : List Row) (h : findIndexRows b d sheetName = Res.ok (b1, d1, tb, td)) :
    ∃ rb rd, b.rows = Except.ok (rb, b1) ∧ d.rows = Except.ok (rd, d1) ∧
      sheetnameMatches sheetName rb = 1 ∧ sheetnameMatches sheetName rd = 1 := by
  unfold findIndexRows at h
  split at h
  · cases h
  · cases hb : b.rows with
    | error p => simp [hb] at h
    | ok x =>
      obtain ⟨rb, b1x⟩ := x
      simp only [hb] at h
      cases htb : targetIndexRows sheetName rb with
      | error p => simp [htb] at h
      | ok tbx =>
        simp only [htb] at h
        split at h
        · cases h
        · split at h
          · cases h
          · cases hd : d.rows with
            | error p => simp [hd] at h
            | ok y =>
              obtain ⟨rd, d1x⟩ := y
              simp only [hd] at h
              cases htd : targetIndexRows sheetName rd with
              | error p => simp [htd] at h
              | ok tdx =>
                simp only [htd] at h
                split at h
                · cases h
                · split at h
                  · cases h
                  · simp only [Res.ok.injEq, Prod.mk.injEq] at h
                    obtain ⟨h1, h2, h3, h4⟩ := h
                    subst h1 h2 h3 h4
                    refine ⟨rb, rd, rfl, rfl, ?_, ?_⟩
                    · unfold sheetnameMatches
                      rw [← targetIndexRows_eq_ok sheetName rb _ htb]
                      omega
                    · unfold sheetnameMatches
                      rw [← targetIndexRows_eq_ok sheetName rd _ htd]
                      omega

theorem resolveTables_of_err {σ : Type} (sm : SheetMerger σ) (b d : sheet) (sheetName : String)
    (w : World σ) (e : Error) (h : findIndexRows b d sheetName = Res.err e) :
    sm.resolveTables b d sheetName w = (Res.err e, w) := by
  unfold SheetMerger.resolveTables
  exact Eff.bind_of_err _ _ _ _ _ (by simp [Eff.ofRes, h])

theorem resolveTables_of_panic {σ : Type} (sm : SheetMerger σ) (b d : sheet)
    (sheetName : String) (w : World σ) (p : Panic)
    (h : findIndexRows b d sheetName = Res.panic p) :
    sm.resolveTables b d sheetName w = (Res.panic p, w) := by
  unfold SheetMerger.resolveTables
  exact Eff.bind_of_panic _ _ _ _ _ (by simp [Eff.ofRes, h])

/-- A successful `resolveTables` has passed `findIndexRows` and issued exactly
two calls, the fetches of the two tables. -/
theorem resolveTables_eq_ok {σ : Type} (sm : SheetMerger σ) (b d : sheet) (sheetName : String)
    (w w1 : World σ) (b1 d1 bs ds : sheet)
    (h : sm.resolveTables b d sheetName w = (Res.ok (b1, d1, bs, ds), w1)) :
    (∃ tb td, findIndexRows b d sheetName = Res.ok (b1, d1, tb, td)) ∧
      ∃ kb kd, w1.trace = w.trace ++ [Call.valuesGet kb sheetName, Call.valuesGet kd sheetName] := by
  unfold SheetMerger.resolveTables at h
  obtain ⟨⟨b1x, d1x, tb, td⟩, w2, h1, h2⟩ := Eff.bind_eq_ok _ _ _ _ _ h
  simp only [Eff.ofRes, Prod.mk.injEq] at h1
  obtain ⟨hfind, hw2⟩ := h1
  subst hw2
  simp only at h2
  obtain ⟨kb, w3, h3, h4⟩ := Eff.bind_eq_ok _ _ _ _ _ h2
  obtain ⟨_, hw3⟩ := Eff.ofExcept_eq_ok _ _ _ _ h3
  subst hw3
  obtain ⟨bsx, w4, h5, h6⟩ := Eff.bind_eq_ok _ _ _ _ _ h4
  obtain ⟨_, ht4⟩ := newSheet_eq_ok sm kb sheetName _ _ _ h5
  obtain ⟨kd, w5, h7, h8⟩ := Eff.bind_eq_ok _ _ _ _ _ h6
  obtain ⟨_, hw5⟩ := Eff.ofExcept_eq_ok _ _ _ _ h7
  subst hw5
  obtain ⟨dsx, w6, h9, h10⟩ := Eff.bind_eq_ok _ _ _ _ _ h8
  obtain ⟨_, ht6⟩ := newSheet_eq_ok sm kd sheetName _ _ _ h9
  simp only [Eff.pure_apply, Prod.mk.injEq, Res.ok.injEq] at h10
  obtain ⟨⟨e1, e2, e3, e4⟩, e5⟩ := h10
  subst e1 e2 e3 e4 e5
  refine ⟨⟨tb, td, hfind⟩, kb, kd, ?_⟩
  rw [ht6, ht4]
  simp

/-- Every call issued by `resolveTables` is a fetch of cell values, and it
issues none unless `findIndexRows` lets the merge go on. -/
theorem resolveTables_trace {σ : Type} (sm : SheetMerger σ) (b d : sheet) (sheetName : String)
    (w : World σ) :
    (∃ x, findIndexRows b d sheetName = Res.ok x) ∨
      ((sm.resolveTables b d sheetName w).2 = w ∧
        ∀ x, (sm.resolveTables b d sheetName w).1 ≠ Res.ok x) := by
  cases hf : findIndexRows b d sheetName with
  | ok x => exact Or.inl ⟨x, rfl⟩
  | err e =>
    right
    rw [resolveTables_of_err sm b d sheetName w e hf]
    exact ⟨rfl, fun x hx => by cases hx⟩
  | panic p =>
    right
    rw [resolveTables_of_panic sm b d sheetName w p hf]
    exact ⟨rfl, fun x hx => by cases hx⟩

/-- The merge run after a failed `resolveTables`: the same result, no further
call. -/
theorem mergeByIndexSheet_of_not_resolved {σ : Type} (sm : SheetMerger σ) (b d : sheet)
    (sheetName : String) (w : World σ)
    (h : ∀ x, (sm.resolveTables b d sheetName w).1 ≠ Res.ok x) :
    (sm.mergeByIndexSheet b d sheetName w).2 = (sm.resolveTables b d sheetName w).2 ∧
      ∀ x, (sm.mergeByIndexSheet b d sheetName w).1 ≠ Res.ok x := by
  unfold SheetMerger.mergeByIndexSheet
  cases hr : sm.resolveTables b d sheetName w with
  | mk r w1 =>
    cases r with
    | ok x => exact absurd (by rw [hr]) (h x)
    | err e =>
      rw [Eff.bind_of_err _ _ _ _ _ hr]
      exact ⟨rfl, fun x hx => by cases hx⟩
    | panic p =>
      rw [Eff.bind_of_panic _ _ _ _ _ hr]
      exact ⟨rfl, fun x hx => by cases hx⟩

/-- The duplicate check on two sheets that have logical rows. -/
theorem dupCheckByColumn_eq (s diff : sheet) (column : String) (rs rd : List Row)
    (s1 diff1 : sheet) (hs : s.rows = Except.ok (rs, s1))
    (hd : diff.rows = Except.ok (rd, diff1)) :
    s.dupCheckByColumn diff column =
      Except.ok
        (((countRows column rd (countRows column rs [])).filter
          (fun kv => decide (1 < kv.2))).map Prod.fst, s1, diff1) := by
  simp only [sheet.dupCheckByColumn, hs, hd]

theorem countInv_both (column : String) (rs rd : List Row) :
    CountInv (countRows column rd (countRows column rs []))
      ((rs ++ rd).map (fun r => rowGet r column)) := by
  have h1 := countInv_rows column rs [] [] countInv_nil
  have h2 := countInv_rows column rd _ _ h1
  simpa using h2

/-- The merge of two fetched tables when the duplicate check reports
something: the error, and no call. -/
theorem mergeTables_of_dup {σ : Type} (service : Remote σ) (bs ds : sheet) (sheetName : String)
    (w : World σ) (dupIDs : List Cell) (s1 s2 : sheet)
    (hdup : bs.dupCheckByColumn ds "id" = Except.ok (dupIDs, s1, s2)) (hne : dupIDs ≠ []) :
    mergeTables service bs ds sheetName w = (Res.err (Error.idDuplication sheetName dupIDs), w) := by
  unfold mergeTables
  rw [Eff.bind_of_ok _ _ w w (dupIDs, s1, s2) (by rw [hdup]; rfl)]
  have hpos : 0 < dupIDs.length := List.length_pos.2 hne
  simp only [hpos, if_true]
  rfl

/-- The merge of two fetched tables when the duplicate check panics (a table
without logical rows): the panic, and no call. -/
theorem mergeTables_of_panic {σ : Type} (service : Remote σ) (bs ds : sheet)
    (sheetName : String) (w : World σ) (p : Panic)
    (hdup : bs.dupCheckByColumn ds "id" = Except.error p) :
    mergeTables service bs ds sheetName w = (Res.panic p, w) := by
  unfold mergeTables
  exact Eff.bind_of_panic _ _ w w p (by rw [hdup]; rfl)

/-- C1: for the base table and the diff table fetched by `mergeByIndexSheet`,
if some `id` value occurs more than once among the logical rows of the two
tables taken together, the run returns the `id duplication` error (carrying
exactly the repeated values) and its trace holds no append; and whenever the
trace of the run holds an append, `dupCheckByColumn(diff, "id")` was empty. -/
theorem mergeByIndexSheet_stops_on_duplicate_id {σ : Type} (sm : SheetMerger σ)
    (baseIndexSheet diffIndexSheet : sheet) (sheetName : String) (st : σ)
    (b1 d1 baseSheet diffSheet : sheet) (w1 : World σ)
    (hres : sm.resolveTables baseIndexSheet diffIndexSheet sheetName (World.init st) =
      (Res.ok (b1, d1, baseSheet, diffSheet), w1)) :
    (∀ (rb rd : List Row) (s1 s2 : sheet),
      baseSheet.rows = Except.ok (rb, s1) → diffSheet.rows = Except.ok (rd, s2) →
      (∃ v, 1 < ((rb ++ rd).map (fun r => rowGet r "id")).count v) →
      ∃ dupIDs,
        (sm.mergeByIndexSheet baseIndexSheet diffIndexSheet sheetName (World.init st)).1 =
          Res.err (Error.idDuplication sheetName dupIDs) ∧
        (∀ v, v ∈ dupIDs ↔ 1 < ((rb ++ rd).map (fun r => rowGet r "id")).count v) ∧
        ∀ c ∈ (sm.mergeByIndexSheet baseIndexSheet diffIndexSheet sheetName
            (World.init st)).2.trace, c.isAppend = false) ∧
    ((∃ c ∈ (sm.mergeByIndexSheet baseIndexSheet diffIndexSheet sheetName
          (World.init st)).2.trace, c.isAppend = true) →
      Except.map Prod.fst (baseSheet.dupCheckByColumn diffSheet "id") = Except.ok []) := by
  obtain ⟨_, kb, kd, htrace⟩ := resolveTables_eq_ok sm _ _ _ _ _ _ _ _ _ hres
  have hget : ∀ c ∈ w1.trace, c.isAppend = false := by
    intro c hc
    rw [htrace] at hc
    simp only [World.init, List.nil_append, List.mem_cons, List.mem_singleton,
      List.not_mem_nil, or_false] at hc
    rcases hc with hc | hc <;> rw [hc] <;> rfl
  have hrun : ∀ dupIDs s1 s2,
      baseSheet.dupCheckByColumn diffSheet "id" = Except.ok (dupIDs, s1, s2) →
      dupIDs ≠ [] →
      sm.mergeByIndexSheet baseIndexSheet diffIndexSheet sheetName (World.init st) =
        (Res.err (Error.idDuplication sheetName dupIDs), w1) := by
    intro dupIDs s1 s2 hd hne
    unfold SheetMerger.mergeByIndexSheet
    rw [Eff.bind_of_ok _ _ _ _ _ hres]
    exact Eff.bind_of_err _ _ _ _ _
      (mergeTables_of_dup sm.service _ _ sheetName w1 dupIDs s1 s2 hd hne)
  constructor
  · intro rb rd s1 s2 hrb hrd ⟨v, hv⟩
    have hdup := dupCheckByColumn_eq baseSheet diffSheet "id" rb rd s1 s2 hrb hrd
    obtain ⟨_, hmem⟩ := dup_keys_spec _ _ (countInv_both "id" rb rd)
    have hne : ((countRows "id" rd (countRows "id" rb [])).filter
        (fun kv => decide (1 < kv.2))).map Prod.fst ≠ [] :=
      List.ne_nil_of_mem ((hmem v).2 hv)
    refine ⟨_, ?_, hmem, ?_⟩
    · rw [hrun _ _ _ hdup hne]
    · rw [hrun _ _ _ hdup hne]; exact hget
  · intro ⟨c, hc, happ⟩
    cases hdup : baseSheet.dupCheckByColumn diffSheet "id" with
    | error p =>
      exfalso
      have hpanic : sm.mergeByIndexSheet baseIndexSheet diffIndexSheet sheetName
          (World.init st) = (Res.panic p, w1) := by
        unfold SheetMerger.mergeByIndexSheet
        rw [Eff.bind_of_ok _ _ _ _ _ hres]
        exact Eff.bind_of_panic _ _ _ _ _
          (mergeTables_of_panic sm.service _ _ sheetName w1 p hdup)
      rw [hpanic] at hc
      rw [hget c hc] at happ
      cases happ
    | ok x =>
      obtain ⟨dupIDs, s1, s2⟩ := x
      by_cases hne : dupIDs = []
      · rw [hne]; rfl
      · exfalso
        rw [hrun _ _ _ hdup hne] at hc
        rw [hget c hc] at happ
        cases happ

/-- Witness for C1: base `users` ids `1, 2`, diff `users` id `2`. -/
theorem mergeByIndexSheet_stops_on_duplicate_id_witness :
    ∃ dupIDs,
      (exampleMerger.mergeByIndexSheet (exampleIndex "BASE" "K1") (exampleIndex "DIFF" "K2")
          "users" (World.init ())).1 =
        Res.err (Error.idDuplication "users" dupIDs) ∧
      (∀ v, v ∈ dupIDs ↔
        1 < ((([[("id", Cell.str "1")], [("id", Cell.str "2")]] : List Row) ++
            [[("id", Cell.str "2")]]).map (fun r => rowGet r "id")).count v) ∧
      ∀ c ∈ (exampleMerger.mergeByIndexSheet (exampleIndex "BASE" "K1")
          (exampleIndex "DIFF" "K2") "users" (World.init ())).2.trace, c.isAppend = false :=
  (mergeByIndexSheet_stops_on_duplicate_id exampleMerger (exampleIndex "BASE" "K1")
    (exampleIndex "DIFF" "K2") "users" () _ _ _ _ _ rfl).1
    [[("id", Cell.str "1")], [("id", Cell.str "2")]] [[("id", Cell.str "2")]] _ _
    rfl rfl ⟨Cell.str "2", by decide⟩

theorem mergeByIndexSheet_of_err {σ : Type} (sm : SheetMerger σ) (b d : sheet)
    (sheetName : String) (w : World σ) (e : Error)
    (h : findIndexRows b d sheetName = Res.err e) :
    sm.mergeByIndexSheet b d sheetName w = (Res.err e, w) := by
  unfold SheetMerger.mergeByIndexSheet
  exact Eff.bind_of_err _ _ _ _ _ (resolveTables_of_err sm b d sheetName w e h)

/-- C10 (amended): with different document keys, `mergeByIndexSheet` issues no
remote call at all (no table fetch, no write) and does not return normally
unless exactly one logical row of the base index and exactly one logical row
of the diff index has `sheetname` equal to the requested name.  When every
logical row of the base index carries a text `sheetname`, zero matches there
yield the `no corresponding base index rows` error and more than one the
`sheetname duplication in base index ws` error; with exactly one base match
and a diff index whose logical rows all carry a text `sheetname`, zero
matches yield `no corresponding diff index rows` and more than one
`sheetname duplication in diff index ws`. -/
theorem mergeByIndexSheet_needs_one_index_row_each {σ : Type} (sm : SheetMerger σ)
    (b d : sheet) (sheetName : String) (st : σ) (hkey : b.sheetKey ≠ d.sheetKey) :
    (((sm.mergeByIndexSheet b d sheetName (World.init st)).2.trace ≠ [] ∨
        ∃ x, (sm.mergeByIndexSheet b d sheetName (World.init st)).1 = Res.ok x) →
      ∃ rb b1 rd d1, b.rows = Except.ok (rb, b1) ∧ d.rows = Except.ok (rd, d1) ∧
        sheetnameMatches sheetName rb = 1 ∧ sheetnameMatches sheetName rd = 1) ∧
    (∀ rb b1, b.rows = Except.ok (rb, b1) →
      (∀ r ∈ rb, ∃ t, rowGet r "sheetname" = Cell.str t) →
      (sheetnameMatches sheetName rb = 0 →
        sm.mergeByIndexSheet b d sheetName (World.init st) =
          (Res.err (Error.noBaseIndexRows sheetName), World.init st)) ∧
      (1 < sheetnameMatches sheetName rb →
        sm.mergeByIndexSheet b d sheetName (World.init st) =
          (Res.err (Error.sheetnameDuplicationBase sheetName), World.init st)) ∧
      (sheetnameMatches sheetName rb = 1 →
        ∀ rd d1, d.rows = Except.ok (rd, d1) →
          (∀ r ∈ rd, ∃ t, rowGet r "sheetname" = Cell.str t) →
          (sheetnameMatches sheetName rd = 0 →
            sm.mergeByIndexSheet b d sheetName (World.init st) =
              (Res.err (Error.noDiffIndexRows sheetName), World.init st)) ∧
          (1 < sheetnameMatches sheetName rd →
            sm.mergeByIndexSheet b d sheetName (World.init st) =
              (Res.err (Error.sheetnameDuplicationDiff sheetName), World.init st)))) := by
  constructor
  · intro h
    rcases resolveTables_trace sm b d sheetName (World.init st) with ⟨⟨b1, d1, tb, td⟩, hx⟩ | ⟨h1, h2⟩
    · obtain ⟨rb, rd, hb, hd, hmb, hmd⟩ := findIndexRows_eq_ok b d sheetName b1 d1 tb td hx
      exact ⟨rb, b1, rd, d1, hb, hd, hmb, hmd⟩
    · obtain ⟨h3, h4⟩ := mergeByIndexSheet_of_not_resolved sm b d sheetName (World.init st) h2
      rcases h with h | ⟨x, hx⟩
      · rw [h3, h1] at h
        exact absurd rfl h
      · exact absurd hx (h4 x)
  · intro rb b1 hb htb
    have hfb := targetIndexRows_of_text sheetName rb htb
    refine ⟨?_, ?_, ?_⟩
    · intro h0
      apply mergeByIndexSheet_of_err
      unfold sheetnameMatches at h0
      simp only [findIndexRows, hkey, if_false, hb, hfb, h0]
      rfl
    · intro h1
      apply mergeByIndexSheet_of_err
      unfold sheetnameMatches at h1
      simp only [findIndexRows, hkey, if_false, hb, hfb, h1, if_true]
    · intro h1 rd d1 hd htd
      have hfd := targetIndexRows_of_text sheetName rd htd
      unfold sheetnameMatches at h1
      constructor
      · intro h0
        apply mergeByIndexSheet_of_err
        unfold sheetnameMatches at h0
        simp only [findIndexRows, hkey, if_false, hb, hfb, h1, hd, hfd, h0]
        rfl
      · intro h2
        apply mergeByIndexSheet_of_err
        unfold sheetnameMatches at h2
        simp only [findIndexRows, hkey, if_false, hb, hfb, h1, hd, hfd, h2, if_true]
        rfl

/-- Witness for C10: the requested name `orders` has no row in the base
index. -/
theorem mergeByIndexSheet_needs_one_index_row_each_witness :
    (exampleIndex "BASE" "K1").sheetKey ≠ (exampleIndex "DIFF" "K2").sheetKey ∧
      exampleMerger.mergeByIndexSheet (exampleIndex "BASE" "K1") (exampleIndex "DIFF" "K2")
          "orders" (World.init ()) =
        (Res.err (Error.noBaseIndexRows "orders"), World.init ()) :=
  ⟨by decide,
    ((mergeByIndexSheet_needs_one_index_row_each exampleMerger (exampleIndex "BASE" "K1")
      (exampleIndex "DIFF" "K2") "orders" () (by decide)).2
      [[("key", Cell.str "K1"), ("sheetname", Cell.str "users"), ("id", Cell.str "1")]] _ rfl
      (by
        intro r hr
        rw [List.mem_singleton.1 hr]
        exact ⟨"users", rfl⟩)).1 (by decide)⟩

/-- C10 (as stated) fails: the base index has the logical row `id = 1`,
`key = K1` and no `sheetname` column, so no row of it is named `users`; the
run panics on the type assertion instead of returning the
`no corresponding base index rows` error. -/
theorem mergeByIndexSheet_missing_sheetname_counterexample :
    (exampleMerger.mergeByIndexSheet
        (sheet.ofGrid "BASE" "table_map" "table_map"
          [[Cell.str "id", Cell.str "key"], [Cell.str "1", Cell.str "K1"]])
        (exampleIndex "DIFF" "K2") "users" (World.init ())).1 =
      Res.panic Panic.typeAssertion ∧
    Except.map Prod.fst
        (sheet.ofGrid "BASE" "table_map" "table_map"
          [[Cell.str "id", Cell.str "key"], [Cell.str "1", Cell.str "K1"]]).rows =
      Except.ok [[("key", Cell.str "K1"), ("id", Cell.str "1")]] ∧
    sheetnameMatches "users" [[("key", Cell.str "K1"), ("id", Cell.str "1")]] = 0 := by
  refine ⟨rfl, rfl, ?_⟩
  decide

/-! ## Lemmas on the backup -/

/-- The final loop of `Backup` on a key list that shares a key with
`dupCheckMap`: one delete of the new folder, then an error. -/
theorem backupVerifyLoop_of_common {σ : Type} (service : Remote σ) (folderId : String)
    (dupCheckMap : List String) : ∀ (keys : List String) (w : World σ),
    (∃ k, k ∈ keys ∧ k ∈ dupCheckMap) →
      ∃ e w2, backupVerifyLoop service folderId dupCheckMap keys w = (Res.err e, w2) ∧
        (e = Error.failInDuplicate ∨ ∃ cause, e = Error.deleteFolderFailed cause folderId) ∧
        w2.trace = w.trace ++ [Call.filesDelete folderId] := by
  intro keys
  induction keys with
  | nil => intro w ⟨k, hk, _⟩; cases hk
  | cons k rest ih =>
    intro w ⟨k1, hk1, hk2⟩
    by_cases hmem : k ∈ dupCheckMap
    · simp only [backupVerifyLoop, hmem, if_true]
      cases hdel : (service.filesDelete folderId w.state).1 with
      | error cause =>
        refine ⟨Error.deleteFolderFailed cause folderId,
          { state := (service.filesDelete folderId w.state).2,
            trace := w.trace ++ [Call.filesDelete folderId] }, ?_, Or.inr ⟨cause, rfl⟩, rfl⟩
        rw [Eff.bind_of_ok _ _ w
          { state := (service.filesDelete folderId w.state).2,
            trace := w.trace ++ [Call.filesDelete folderId] }
          (Except.error cause) (by simp only [Eff.call, hdel])]
        rfl
      | ok u =>
        refine ⟨Error.failInDuplicate,
          { state := (service.filesDelete folderId w.state).2,
            trace := w.trace ++ [Call.filesDelete folderId] }, ?_, Or.inl rfl, rfl⟩
        rw [Eff.bind_of_ok _ _ w
          { state := (service.filesDelete folderId w.state).2,
            trace := w.trace ++ [Call.filesDelete folderId] }
          (Except.ok u) (by simp only [Eff.call, hdel])]
        rfl
    · simp only [backupVerifyLoop, hmem, if_false]
      apply ih
      rcases List.mem_cons.1 hk1 with e | hr
      · subst e; exact absurd hk2 hmem
      · exact ⟨k1, hr, hk2⟩

/-- The run of `Backup` once the preparation has succeeded and both key lists
are computed, when the two lists share a key. -/
theorem Backup_of_common {σ : Type} (sm : SheetMerger σ)
    (indexSheetKey baseFolderID backupFolderName : String) (w0 w1 : World σ)
    (indexSheet backupIndexSheet : sheet) (backupFolderId : String)
    (keys backupKeys : List String) (i1 b1 : sheet)
    (hprep : sm.backupPrepare indexSheetKey baseFolderID backupFolderName w0 =
      (Res.ok (indexSheet, backupIndexSheet, backupFolderId), w1))
    (hkeys : indexSheet.uniqueValuesByColumn "key" = Except.ok (keys, i1))
    (hbackup : backupIndexSheet.uniqueValuesByColumn "key" = Except.ok (backupKeys, b1))
    (hcommon : ∃ k, k ∈ keys ∧ k ∈ backupKeys) :
    ∃ e w2, sm.Backup indexSheetKey baseFolderID backupFolderName w0 = (Res.err e, w2) ∧
      (e = Error.failInDuplicate ∨ ∃ cause, e = Error.deleteFolderFailed cause backupFolderId) ∧
      w2.trace = w1.trace ++ [Call.filesDelete backupFolderId] := by
  obtain ⟨e, w2, hloop, he, htr⟩ :=
    backupVerifyLoop_of_common sm.service backupFolderId backupKeys keys w1 hcommon
  refine ⟨e, w2, ?_, he, htr⟩
  unfold SheetMerger.Backup
  rw [Eff.bind_of_ok _ _ _ _ _ hprep]
  show backupVerify sm.service indexSheet backupIndexSheet backupFolderId w1 = _
  unfold backupVerify
  rw [Eff.bind_of_ok _ _ w1 w1 (backupKeys, b1) (by rw [hbackup]; rfl)]
  simp only
  rw [Eff.bind_of_ok _ _ w1 w1 (keys, i1) (by rw [hkeys]; rfl)]
  exact hloop

/-- The run of `Backup` once the preparation has succeeded, when reading the
key column of the refreshed backup index panics. -/
theorem Backup_of_panic {σ : Type} (sm : SheetMerger σ)
    (indexSheetKey baseFolderID backupFolderName : String) (w0 w1 : World σ)
    (indexSheet backupIndexSheet : sheet) (backupFolderId : String) (p : Panic)
    (hprep : sm.backupPrepare indexSheetKey baseFolderID backupFolderName w0 =
      (Res.ok (indexSheet, backupIndexSheet, backupFolderId), w1))
    (hbackup : backupIndexSheet.uniqueValuesByColumn "key" = Except.error p) :
    sm.Backup indexSheetKey baseFolderID backupFolderName w0 = (Res.panic p, w1) := by
  unfold SheetMerger.Backup
  rw [Eff.bind_of_ok _ _ _ _ _ hprep]
  show backupVerify sm.service indexSheet backupIndexSheet backupFolderId w1 = _
  unfold backupVerify
  exact Eff.bind_of_panic _ _ w1 w1 p (by rw [hbackup]; rfl)

/-- The loop of `uniqueValuesByColumn` keeps what it has collected and
collects the text of the column in every row. -/
theorem uniqueLoop_mem (column : String) : ∀ (rows : List Row) (countMap res out : List String),
    (∀ v ∈ countMap, v ∈ res) → uniqueLoop column rows countMap res = Except.ok out →
      (∀ v ∈ res, v ∈ out) ∧
        ∀ row ∈ rows, ∀ v, rowGet row column = Cell.str v → v ∈ out := by
  intro rows
  induction rows with
  | nil =>
    intro countMap res out _ h
    simp only [uniqueLoop, Except.ok.injEq] at h
    subst h
    exact ⟨fun v hv => hv, fun row hrow => by cases hrow⟩
  | cons r rest ih =>
    intro countMap res out hcm h
    simp only [uniqueLoop] at h
    cases hc : rowGet r column with
    | null => simp [hc, Cell.assertString] at h
    | num n => simp [hc, Cell.assertString] at h
    | bool b => simp [hc, Cell.assertString] at h
    | str t =>
      simp only [hc, Cell.assertString] at h
      by_cases hin : t ∈ countMap
      · rw [if_pos hin] at h
        obtain ⟨h1, h2⟩ := ih countMap res out hcm h
        refine ⟨h1, ?_⟩
        intro row hrow v hv
        rcases List.mem_cons.1 hrow with e | hr
        · subst e
          rw [hc] at hv
          rw [← Cell.str.inj hv]
          exact h1 t (hcm t hin)
        · exact h2 row hr v hv
      · rw [if_neg hin] at h
        have hcm2 : ∀ v ∈ t :: countMap, v ∈ res ++ [t] := by
          intro v hv
          rcases List.mem_cons.1 hv with e | hv2
          · rw [e]; simp
          · exact List.mem_append_left _ (hcm v hv2)
        obtain ⟨h1, h2⟩ := ih (t :: countMap) (res ++ [t]) out hcm2 h
        refine ⟨fun v hv => h1 v (List.mem_append_left _ hv), ?_⟩
        intro row hrow v hv
        rcases List.mem_cons.1 hrow with e | hr
        · subst e
          rw [hc] at hv
          rw [← Cell.str.inj hv]
          exact h1 t (by simp)
        · exact h2 row hr v hv

/-- C2: when `Backup` has reached the check after the key-column rewrite and
the refresh, and the key values of the refreshed backup index share a value
with the key values of the original index, the run returns an error (`fail in
duplicate`, or the error of the failed delete), and the last call it issued is
the delete of the newly created backup folder.  Moreover the run never returns
success when some logical row of the refreshed backup index carries one of the
original keys in its `key` column. -/
theorem Backup_fails_when_original_key_remains {σ : Type} (sm : SheetMerger σ)
    (indexSheetKey baseFolderID backupFolderName : String) (st : σ)
    (indexSheet backupIndexSheet : sheet) (backupFolderId : String) (w1 : World σ)
    (keys : List String) (i1 : sheet)
    (hprep : sm.backupPrepare indexSheetKey baseFolderID backupFolderName (World.init st) =
      (Res.ok (indexSheet, backupIndexSheet, backupFolderId), w1))
    (hkeys : indexSheet.uniqueValuesByColumn "key" = Except.ok (keys, i1)) :
    (∀ (backupKeys : List String) (b1 : sheet),
      backupIndexSheet.uniqueValuesByColumn "key" = Except.ok (backupKeys, b1) →
      (∃ k, k ∈ keys ∧ k ∈ backupKeys) →
      ∃ e w2, sm.Backup indexSheetKey baseFolderID backupFolderName (World.init st) =
          (Res.err e, w2) ∧
        (e = Error.failInDuplicate ∨
          ∃ cause, e = Error.deleteFolderFailed cause backupFolderId) ∧
        w2.trace = w1.trace ++ [Call.filesDelete backupFolderId]) ∧
    (∀ (rs : List Row) (b2 : sheet), backupIndexSheet.rows = Except.ok (rs, b2) →
      (∃ k, k ∈ keys ∧ ∃ row ∈ rs, rowGet row "key" = Cell.str k) →
      ∀ x, (sm.Backup indexSheetKey baseFolderID backupFolderName (World.init st)).1 ≠
        Res.ok x) := by
  constructor
  · intro backupKeys b1 hbackup hcommon
    exact Backup_of_common sm _ _ _ _ _ _ _ _ _ _ _ _ hprep hkeys hbackup hcommon
  · intro rs b2 hrows ⟨k, hk, row, hrow, hget⟩ x hx
    cases hb : backupIndexSheet.uniqueValuesByColumn "key" with
    | error p =>
      rw [Backup_of_panic sm _ _ _ _ _ _ _ _ p hprep hb] at hx
      cases hx
    | ok y =>
      obtain ⟨backupKeys, b1⟩ := y
      have hloop : uniqueLoop "key" rs [] [] = Except.ok backupKeys := by
        simp only [sheet.uniqueValuesByColumn, hrows] at hb
        cases hu : uniqueLoop "key" rs [] [] with
        | error p => simp [hu] at hb
        | ok out =>
          simp only [hu, Except.ok.injEq, Prod.mk.injEq] at hb
          rw [hb.1]
      have hmem := (uniqueLoop_mem "key" rs [] [] backupKeys (fun v hv => by cases hv) hloop).2
        row hrow k hget
      obtain ⟨e, w2, hrun, _, _⟩ :=
        Backup_of_common sm _ _ _ _ _ _ _ _ _ _ _ _ hprep hkeys hb ⟨k, hk, hmem⟩
      rw [hrun] at hx
      cases hx

/-- Witness for C2: the example remote ignores the rewrite, so the refreshed
backup index still holds the original key `K1`. -/
theorem Backup_fails_when_original_key_remains_witness :
    ∃ e w2, exampleMerger.Backup "IDX" "BASE" "run1" (World.init ()) = (Res.err e, w2) ∧
      (e = Error.failInDuplicate ∨ ∃ cause, e = Error.deleteFolderFailed cause "F") ∧
      w2.trace =
        [Call.filesList "'BASE' in parents and mimeType = 'application/vnd.google-apps.folder'",
          Call.filesCreate "run1" "application/vnd.google-apps.folder" ["BK"],
          Call.valuesGet "IDX" "table_map",
          Call.filesGet "IDX",
          Call.filesCopy "IDX" "doc" ["F"],
          Call.valuesGet "copy-of-IDX" "table_map",
          Call.filesGet "K1",
          Call.filesCopy "K1" "doc" ["F"],
          Call.valuesUpdate "copy-of-IDX" ("table_map" ++ "!" ++ n2c (2 + 1) ++ ":" ++ n2c (2 + 1))
            { majorDimension := "ROWS"
              values := [[Cell.str "key"], [Cell.str "copy-of-K1"]] } "USER_ENTERED",
          Call.valuesGet "copy-of-IDX" "table_map"] ++ [Call.filesDelete "F"] :=
  (Backup_fails_when_original_key_remains exampleMerger "IDX" "BASE" "run1" () _ _ "F"
    { state := (),
      trace :=
        [Call.filesList "'BASE' in parents and mimeType = 'application/vnd.google-apps.folder'",
          Call.filesCreate "run1" "application/vnd.google-apps.folder" ["BK"],
          Call.valuesGet "IDX" "table_map",
          Call.filesGet "IDX",
          Call.filesCopy "IDX" "doc" ["F"],
          Call.valuesGet "copy-of-IDX" "table_map",
          Call.filesGet "K1",
          Call.filesCopy "K1" "doc" ["F"],
          Call.valuesUpdate "copy-of-IDX" ("table_map" ++ "!" ++ n2c (2 + 1) ++ ":" ++ n2c (2 + 1))
            { majorDimension := "ROWS"
              values := [[Cell.str "key"], [Cell.str "copy-of-K1"]] } "USER_ENTERED",
          Call.valuesGet "copy-of-IDX" "table_map"] }
    ["K1"] _ rfl rfl).1 ["K1"] _ rfl ⟨"K1", by decide, by decide⟩

end Sheetmerger
